import Mathlib

/-!
Shallow embedding of the paw-prints asset-preparation scripts
(`utilities/generate_paw_collection.py` and `utilities/setup_annotation.py`)
and proofs about them.

Modelling conventions:
* Python strings are Lean `String`s (lists of unicode characters); the
  per-character helpers work on `List Char`, which the kernel can evaluate.
* Python floats are modelled by exact rationals `ℚ`; `round(x, 6)` is
  round-half-to-even at six decimal places, `str` of such a rounded value is
  rendered as a plain decimal with trailing zeros stripped (at least one
  fractional digit, as Python prints whole floats as `52.0`).
* The file system, the image library (PIL) and the reverse geocoder are
  oracles passed in explicitly; a `PyImage` record holds what PIL would
  report for one file, with `openOk := false` meaning `Image.open` or
  `_getexif` raises.
* Each script's `main` is a fold over an explicit state record; printing is
  modelled by a `warnings` list, file copies by a `copies` list, deletions by
  filtering the annotation-directory listing.
* Paths follow the Windows flavour used by the repository: both `/` and `\`
  separate components.
-/

namespace PawPrints

/-! ### Decimal rendering of naturals (Python `str(i)` / `f-string`) -/

/-- The decimal digit character for a value below ten. -/
def digitChar : Nat → Char
  | 0 => '0'
  | 1 => '1'
  | 2 => '2'
  | 3 => '3'
  | 4 => '4'
  | 5 => '5'
  | 6 => '6'
  | 7 => '7'
  | 8 => '8'
  | _ => '9'

/-- Fuel-indexed decimal digit expansion; `fuel ≥ n` always suffices. -/
def natDigitsAux : Nat → Nat → List Char
  | fuel, n =>
    if n < 10 then [digitChar n]
    else
      match fuel with
      | 0 => []
      | fuel' + 1 => natDigitsAux fuel' (n / 10) ++ [digitChar (n % 10)]

/-- Decimal digit expansion of a natural number, most significant first. -/
def natDigits (n : Nat) : List Char := natDigitsAux n n

/-- Python `str(i)` for a non-negative integer `i`. -/
def pyStrNat (n : Nat) : String := String.mk (natDigits n)

/-- Numeric value of a decimal digit character. -/
def digitVal (c : Char) : Nat := c.toNat - 48

/-- Value of a decimal digit string, most significant first. -/
def decValue (l : List Char) : Nat := l.foldl (fun a c => a * 10 + digitVal c) 0

/-- Left-pad a digit list with `'0'` up to width `k` (Python `{:0kd}`). -/
def padLeftZeros (k : Nat) (l : List Char) : List Char :=
  List.replicate (k - l.length) '0' ++ l

/-- Python `f"paw_{i:03d}"`s numeric part: decimal, zero-padded to width 3. -/
def pad3 (n : Nat) : String := String.mk (padLeftZeros 3 (natDigits n))

/-! ### Character-list utilities for Python string methods -/

/-- Python `s.strip()`: drop leading and trailing whitespace. -/
def pyStripChars (l : List Char) : List Char :=
  ((l.dropWhile Char.isWhitespace).reverse.dropWhile Char.isWhitespace).reverse

/-- Python `s.strip()` on strings. -/
def pyStrip (s : String) : String := String.mk (pyStripChars s.data)

/-- Python `s.split(sep)` for a one-character separator: chunks between
separator occurrences, empty chunks kept, always at least one chunk. -/
def splitChars (sep : Char → Bool) : List Char → List (List Char)
  | [] => [[]]
  | c :: rest =>
    let r := splitChars sep rest
    if sep c then [] :: r
    else
      match r with
      | [] => [[c]]
      | h :: t => (c :: h) :: t

/-- Windows path separators (`/` and `\`), as in the script's own regexes. -/
def isSep (c : Char) : Bool := c = '/' || c = '\\'

/-- `pathlib`'s `Path(p).name`: the last path component, with empty
components and bare `.` components dropped (drive-letter relative forms are
out of scope for this repository's data). -/
def pyNameChars (p : List Char) : List Char :=
  (((splitChars isSep p).filter (fun c => c ≠ [] ∧ c ≠ ['.'])).getLast?).getD []

/-- `pathlib`'s `Path(p).name` on strings. -/
def pyName (s : String) : String := String.mk (pyNameChars s.data)

/-- Index of the last `'.'` in a character list, if any. -/
def rfindDotIdx (l : List Char) : Option Nat :=
  match l.reverse.findIdx? (fun c => c = '.') with
  | none => none
  | some j => some (l.length - 1 - j)

/-- `pathlib`'s `stem` of a bare file name: everything before the final dot,
unless the dot is first or last (CPython's `0 < i < len(name) - 1` test). -/
def pyStemChars (name : List Char) : List Char :=
  match rfindDotIdx name with
  | none => name
  | some i => if 0 < i ∧ i < name.length - 1 then name.take i else name

/-- `pathlib`'s `suffix` of a bare file name. -/
def pySuffixChars (name : List Char) : List Char :=
  match rfindDotIdx name with
  | none => []
  | some i => if 0 < i ∧ i < name.length - 1 then name.drop i else []

/-- `Path(wanted).stem` for a bare file name (as passed to `unique_name`). -/
def pyStem (s : String) : String := String.mk (pyStemChars s.data)

/-- `Path(wanted).suffix` for a bare file name. -/
def pySuffix (s : String) : String := String.mk (pySuffixChars s.data)

/-- `Path(p).stem` for a full path: stem of the last component. -/
def pyPathStem (p : String) : String := String.mk (pyStemChars (pyNameChars p.data))

/-- Python `int(s)`: optional surrounding whitespace, optional sign, then a
non-empty run of decimal digits; `none` models a raised `ValueError`.
(Underscore separators and non-ASCII digits are not used by this data.) -/
def pyInt? (s : String) : Option Int :=
  let l := pyStripChars s.data
  match l with
  | '+' :: ds =>
    if ds ≠ [] ∧ ds.all Char.isDigit then some (Int.ofNat (decValue ds)) else none
  | '-' :: ds =>
    if ds ≠ [] ∧ ds.all Char.isDigit then some (-(Int.ofNat (decValue ds))) else none
  | ds =>
    if ds ≠ [] ∧ ds.all Char.isDigit then some (Int.ofNat (decValue ds)) else none

/-- Python `";".join(l)`. -/
def joinSC : List String → String
  | [] => ""
  | [x] => x
  | x :: rest => x ++ ";" ++ joinSC rest

/-! ### Python string comparison and stable sorting (`list.sort(key=...)`) -/

/-- Lexicographic `≤` on character lists by code point, as Python compares
strings. -/
def lexLe : List Char → List Char → Bool
  | [], _ => true
  | _ :: _, [] => false
  | a :: as, b :: bs =>
    if a.toNat < b.toNat then true
    else if a.toNat = b.toNat then lexLe as bs
    else false

/-- Python string `≤`. -/
def pyStrLe (a b : String) : Bool := lexLe a.data b.data

/-- Insert `a` into a sorted list after every element `b` with `le b a`;
keeps equal-key elements in arrival order, as Python's stable sort does. -/
def stableInsert (le : α → α → Bool) (a : α) : List α → List α
  | [] => [a]
  | b :: bs => if le b a then b :: stableInsert le a bs else a :: b :: bs

/-- Stable sort by repeated insertion; for a total transitive `le` this is
the unique stable ascending ordering, i.e. Python's `list.sort`. -/
def stableSort (le : α → α → Bool) (l : List α) : List α :=
  l.foldl (fun acc a => stableInsert le a acc) []

/-! ### PIL-level data for one image -/

/-- One entry of the `GPSInfo` EXIF dictionary (after `GPSTAGS` renaming):
either a triple of rationals (degrees, minutes, seconds) or some other
value, on which `float`-conversion raises. -/
inductive GpsVal where
  | triple (d m s : ℚ)
  | str (s : String)

/-- An EXIF tag value as the scripts consume it: a string-like value
(`DateTimeOriginal`, …) or the nested `GPSInfo` dictionary. -/
inductive ExifVal where
  | str (s : String)
  | gps (entries : List (String × GpsVal))

/-- Python `str(value)` of an EXIF value; the `GPSInfo` dictionary never
renders as anything date-like, so it is modelled as `""`. -/
def pyStrOfVal : ExifVal → String
  | .str s => s
  | .gps _ => ""

/-- An IPTC value: raw bytes (decoded) or a list of byte strings. -/
inductive IptcVal where
  | bytes (s : String)
  | list (l : List String)

/-- What PIL reports for one image file.  `openOk := false` models
`Image.open`/`_getexif` raising; `exif := none` models `_getexif()`
returning `None`; the EXIF tag list is keyed by `TAGS` names. -/
structure PyImage where
  openOk : Bool
  exif : Option (List (String × ExifVal))
  iptc : Option (List ((Nat × Nat) × IptcVal))

/-- A PyImage with no usable metadata at all. -/
instance : Inhabited PyImage := ⟨⟨true, none, none⟩⟩

/-! ### `extract_gps` -/

/-- Python `ref in ("S", "W")`. -/
def isSW : GpsVal → Bool
  | .str s => s == "S" || s == "W"
  | _ => false

/-- Round-half-to-even to an integer (Python 3 `round`). -/
def roundHalfEven (q : ℚ) : ℤ :=
  let f : ℤ := Rat.floor q
  let r : ℚ := q - (f : ℚ)
  if r < 1 / 2 then f
  else if 1 / 2 < r then f + 1
  else if f % 2 = 0 then f else f + 1

/-- Python `round(x, 6)` on the exact rational value. -/
def round6 (q : ℚ) : ℚ := ((roundHalfEven (q * 1000000) : ℤ) : ℚ) / 1000000

/-- Index of the last `'0'`-free position: strip trailing zero characters. -/
def stripZeros (l : List Char) : List Char :=
  (l.reverse.dropWhile (fun c => c = '0')).reverse

/-- Python `str` of a float that is an exact multiple of `10⁻⁶` (the result
of `round(x, 6)`): sign, integer part, `'.'`, fractional digits with
trailing zeros stripped but at least one digit kept. -/
def ratStr6 (q : ℚ) : String :=
  let n : ℤ := Rat.floor (q * 1000000)
  let a : Nat := n.natAbs
  let frac := stripZeros (padLeftZeros 6 (natDigits (a % 1000000)))
  let frac := if frac = [] then ['0'] else frac
  (if n < 0 then "-" else "") ++ pyStrNat (a / 1000000) ++ "." ++ String.mk frac

/-- `to_decimal(coord, ref)` inside `extract_gps`: unpack three rationals,
convert to decimal degrees, negate for south/west, round to six places;
`none` models the exception raised when `coord` is not a triple of numbers. -/
def to_decimal (coord ref : GpsVal) : Option ℚ :=
  match coord with
  | .str _ => none
  | .triple d m s =>
    let dec := d + m / 60 + s / 3600
    some (round6 (if isSW ref then -dec else dec))

/-- `extract_gps(image_path)`: decimal-degree latitude and longitude as
strings, or `("", "")` when EXIF is absent, the `GPSInfo` tag is absent or
empty, or any step of the extraction raises. -/
def extract_gps (img : PyImage) : String × String :=
  if img.openOk then
    match img.exif with
    | none => ("", "")
    | some tags =>
      if tags.isEmpty then ("", "")
      else
        match List.lookup "GPSInfo" tags with
        | none => ("", "")
        | some (.str _) => ("", "")
        | some (.gps entries) =>
          if entries.isEmpty then ("", "")
          else
            match List.lookup "GPSLatitude" entries, List.lookup "GPSLatitudeRef" entries,
                  List.lookup "GPSLongitude" entries, List.lookup "GPSLongitudeRef" entries with
            | some la, some lar, some lo, some lor =>
              match to_decimal la lar, to_decimal lo lor with
              | some dlat, some dlon => (ratStr6 dlat, ratStr6 dlon)
              | _, _ => ("", "")
            | _, _, _, _ => ("", "")
  else ("", "")

/-! ### `extract_date` -/

/-- Leftmost run of eight consecutive decimal digits, split 4/2/2
(the `(\d{4})(\d{2})(\d{2})` search). -/
def find8 : List Char → Option (List Char × List Char × List Char)
  | [] => none
  | c :: rest =>
    let run := (c :: rest).take 8
    if run.length = 8 ∧ run.all Char.isDigit then
      some (run.take 4, ((run.drop 4).take 2, run.drop 6))
    else find8 rest

/-- Leftmost `[/\\](\d{4})[/\\]` match in the full path: a directory
component of exactly four digits. -/
def yearDir : List Char → Option (List Char)
  | a :: b :: c :: d :: e :: f :: rest =>
    if isSep a ∧ b.isDigit ∧ c.isDigit ∧ d.isDigit ∧ e.isDigit ∧ isSep f then
      some [b, c, d, e]
    else yearDir (b :: c :: d :: e :: f :: rest)
  | _ => none

/-- Result of scanning the EXIF tags for a date: a validated date string, an
uncaught-within-the-loop exception (aborting to the next fallback), or no
acceptable tag. -/
inductive ScanRes where
  | found (s : String)
  | exc
  | notFound
deriving DecidableEq

/-- The EXIF loop of `extract_date`: for each `DateTimeOriginal`/`DateTime`
tag, split off the date part, require three `':'`-separated fields with a
four-character first field, convert with `int` (a parse failure raises and
aborts the whole loop), range-check year/month/day, and return the first
value that passes; tags failing the shape or range checks are skipped. -/
def exifDateScan : List (String × ExifVal) → ScanRes
  | [] => .notFound
  | (n, v) :: rest =>
    if n = "DateTimeOriginal" ∨ n = "DateTime" then
      let parts := splitChars (fun c => c = ' ') (pyStripChars (pyStrOfVal v).data)
      let d := splitChars (fun c => c = ':') (parts.headD [])
      if d.length = 3 ∧ (d.headD []).length = 4 then
        match pyInt? (String.mk (d.getD 0 [])), pyInt? (String.mk (d.getD 1 [])),
              pyInt? (String.mk (d.getD 2 [])) with
        | some y, some mo, some dy =>
          if 1900 ≤ y ∧ y ≤ 2100 ∧ 1 ≤ mo ∧ mo ≤ 12 ∧ 1 ≤ dy ∧ dy ≤ 31 then
            .found (String.mk (d.getD 0 []) ++ "-" ++ String.mk (d.getD 1 []) ++ "-" ++
              String.mk (d.getD 2 []))
          else exifDateScan rest
        | _, _, _ => .exc
      else exifDateScan rest
    else exifDateScan rest

/-- The EXIF fallback of `extract_date` for an optional image: `None` and
images whose EXIF cannot be read yield no date. -/
def exifDate (img : Option PyImage) : ScanRes :=
  match img with
  | none => .notFound
  | some im =>
    if im.openOk then
      match im.exif with
      | none => .notFound
      | some tags => exifDateScan tags
    else .exc

/-- `extract_date(path_str, image_path)`: eight digits in the file-name stem
as `YYYY-MM-DD`, else a validated EXIF date, else a four-digit directory
component as a bare year, else `""`. -/
def extract_date (pathStr : String) (img : Option PyImage) : String :=
  match find8 (pyPathStem pathStr).data with
  | some (g1, g2, g3) => String.mk g1 ++ "-" ++ String.mk g2 ++ "-" ++ String.mk g3
  | none =>
    match exifDate img with
    | .found s => s
    | _ =>
      match yearDir pathStr.data with
      | some y => String.mk y
      | none => ""

/-! ### `extract_time` and `extract_spotter` -/

/-- The EXIF loop of `extract_time`: the part after the single space of the
first `DateTimeOriginal`/`DateTime` value that splits into exactly two
space-separated parts. -/
def exifTimeScan : List (String × ExifVal) → Option String
  | [] => none
  | (n, v) :: rest =>
    if n = "DateTimeOriginal" ∨ n = "DateTime" then
      let parts := splitChars (fun c => c = ' ') (pyStripChars (pyStrOfVal v).data)
      if parts.length = 2 then some (String.mk (parts.getD 1 [])) else exifTimeScan rest
    else exifTimeScan rest

/-- `extract_time(image_path)`. -/
def extract_time (img : PyImage) : String :=
  if img.openOk then
    match img.exif with
    | none => ""
    | some tags => (exifTimeScan tags).getD ""
  else ""

/-- `extract_spotter(image_path)`: the stripped IPTC Credit `(2, 110)` value
when present and non-empty, otherwise `"Christoph"`; an empty list value
raises on `credit[0]` and falls back too. -/
def extract_spotter (img : PyImage) : String :=
  if img.openOk then
    match img.iptc with
    | none => "Christoph"
    | some entries =>
      if entries.isEmpty then "Christoph"
      else
        match (List.lookup (2, 110) entries).getD (.bytes "") with
        | .list [] => "Christoph"
        | .list (x :: _) =>
          let v := String.mk (pyStripChars x.data)
          if v = "" then "Christoph" else v
        | .bytes s =>
          let v := String.mk (pyStripChars s.data)
          if v = "" then "Christoph" else v
  else "Christoph"

/-! ### `_read_species` -/

/-- `_read_species(src_path, annotation_map)`: semicolon-joined names of the
true flags of the LabelMe sidecar `annotation/<stem>.json`; `""` when the
path is unmapped, mapped to a falsy (empty) name, the sidecar is missing, or
reading/parsing fails (`readJson _ = none`).  `readJson` returns the `flags`
dictionary of the parsed file (`some []` when the key is absent). -/
def _read_species (srcPath : String) (annMap : List (String × String))
    (fsExists : String → Bool) (readJson : String → Option (List (String × Bool))) : String :=
  match List.lookup srcPath annMap with
  | none => ""
  | some annFile =>
    if annFile = "" then ""
    else
      let jsonPath := "annotation/" ++ pyStem annFile ++ ".json"
      if fsExists jsonPath then
        match readJson jsonPath with
        | none => ""
        | some flags => joinSC ((flags.filter (fun kv => kv.2)).map (fun kv => kv.1))
      else ""

/-! ### `setup_annotation.py` -/

/-- `f"{stem}_{i}{suffix}"`. -/
def candName (stem suffix : String) (i : Nat) : String :=
  stem ++ "_" ++ pyStrNat i ++ suffix

/-- The `while True` search of `unique_name`, with explicit fuel; the fuel
`taken.length + 1` used below always suffices (proved later), so the
`fuel = 0` branch is unreachable. -/
def uniqueNameAux (stem suffix : String) (taken : List String) : Nat → Nat → String
  | 0, i => candName stem suffix i
  | fuel + 1, i =>
    let c := candName stem suffix i
    if c ∈ taken then uniqueNameAux stem suffix taken fuel (i + 1) else c

/-- `unique_name(wanted, taken)`: `wanted` if free, else the first of
`stem_2+suffix`, `stem_3+suffix`, … not in `taken`. -/
def unique_name (wanted : String) (taken : List String) : String :=
  if wanted ∈ taken then
    uniqueNameAux (pyStem wanted) (pySuffix wanted) taken (taken.length + 1) 2
  else wanted

/-- The candidate sequence of `unique_name`: `wanted`, `stem_2+suffix`,
`stem_3+suffix`, … -/
def nameSeq (wanted : String) : Nat → String
  | 0 => wanted
  | k + 1 => candName (pyStem wanted) (pySuffix wanted) (k + 2)

/-- The warning both scripts print for a missing source file. -/
def warnNotFound (p : String) : String :=
  "  WARNING: source not found, skipping — " ++ p

/-- The CSV ingestion both scripts share: strip each `image_path` cell and
drop the rows whose stripped value is empty. -/
def loadPaths (raw : List String) : List String :=
  (raw.map pyStrip).filter (fun s => s ≠ "")

/-- One step of the `Remove entries no longer in the CSV` loop: a mapping
entry whose source is still listed is kept; otherwise it is dropped and its
annotation image and `annotation/<stem>.json` sidecar are unlinked when
present.  State: kept entries, annotation-directory listing, removed count. -/
def removeEntry (paths : List String) (acc : List (String × String) × List String × Nat)
    (e : String × String) : List (String × String) × List String × Nat :=
  if e.1 ∈ paths then (acc.1 ++ [e], acc.2.1, acc.2.2)
  else
    let d1 := acc.2.1.filter (fun n => n ≠ e.2)
    let d2 := d1.filter (fun n => n ≠ pyStem e.2 ++ ".json")
    (acc.1, d2, acc.2.2 + 1)

/-- The whole removal loop over the loaded mapping. -/
def removePhase (paths : List String) (map0 : List (String × String)) (dir0 : List String) :
    List (String × String) × List String × Nat :=
  map0.foldl (removeEntry paths) ([], dir0, 0)

/-- State of the copy loop of `setup_annotation.main`. -/
structure SetupState where
  mapping : List (String × String)
  taken : List String
  dirFiles : List String
  copies : List (String × String)
  warnings : List String
  newCount : Nat
  skipCount : Nat
  errorCount : Nat

/-- One iteration of the copy loop: already-mapped sources are skipped,
missing sources are warned about and counted, and fresh existing sources are
copied under a `unique_name` and appended to the mapping. -/
def setupAdd (srcExists : String → Bool) (st : SetupState) (p : String) : SetupState :=
  if (List.lookup p st.mapping).isSome then
    { st with skipCount := st.skipCount + 1 }
  else if srcExists p then
    let ann := unique_name (pyName p) st.taken
    { st with
      dirFiles := List.insert ann st.dirFiles
      mapping := st.mapping ++ [(p, ann)]
      taken := ann :: st.taken
      copies := st.copies ++ [(p, "annotation/" ++ ann)]
      newCount := st.newCount + 1 }
  else
    { st with
      warnings := st.warnings ++ [warnNotFound p]
      errorCount := st.errorCount + 1 }

/-- Observable result of one `setup_annotation.main` run. -/
structure SetupOutput where
  mapping : List (String × String)
  dirFiles : List String
  copies : List (String × String)
  warnings : List String
  newCount : Nat
  skipCount : Nat
  errorCount : Nat
  removedCount : Nat
deriving Inhabited, DecidableEq

/-- The state after the whole copy loop of `setup_annotation.main`, starting
from the reconciled mapping (with `taken = set(mapping.values())`). -/
def setupFold (srcExists : String → Bool) (raw : List String)
    (map0 : List (String × String)) (dir0 : List String) : SetupState :=
  let paths := loadPaths raw
  let rp := removePhase paths map0 dir0
  paths.foldl (setupAdd srcExists) ⟨rp.1, rp.1.map Prod.snd, rp.2.1, [], [], 0, 0, 0⟩

/-- `setup_annotation.main`: load and filter the worklist (an empty list
returns before saving anything, modelled by `none`), reconcile the loaded
mapping against it, then copy fresh sources and save the mapping. -/
def runSetup (srcExists : String → Bool) (raw : List String)
    (map0 : List (String × String)) (dir0 : List String) : Option SetupOutput :=
  let paths := loadPaths raw
  if paths.isEmpty then none
  else
    let st := setupFold srcExists raw map0 dir0
    some ⟨st.mapping, st.dirFiles, st.copies, st.warnings, st.newCount, st.skipCount,
      st.errorCount, (removePhase paths map0 dir0).2.2⟩

/-! ### `generate_paw_collection.py` -/

/-- The `FIELDNAMES` constant: header of the metadata CSV. -/
def FIELDNAMES : List String :=
  ["objectid", "title", "date", "time", "description", "subject", "species", "location",
   "country", "latitude", "longitude", "type", "format", "display_template",
   "object_location", "image_small", "image_thumb", "spotter", "source_file"]

/-- The `CC_TO_NAME` country-code table. -/
def CC_TO_NAME : List (String × String) :=
  [("AF", "Afghanistan"), ("AL", "Albania"), ("DZ", "Algeria"), ("AR", "Argentina"),
   ("AU", "Australia"), ("AT", "Austria"), ("BE", "Belgium"), ("BR", "Brazil"),
   ("BG", "Bulgaria"), ("CA", "Canada"), ("CL", "Chile"), ("CN", "China"),
   ("CO", "Colombia"), ("HR", "Croatia"), ("CZ", "Czech Republic"), ("DK", "Denmark"),
   ("EG", "Egypt"), ("EE", "Estonia"), ("FI", "Finland"), ("FR", "France"),
   ("DE", "Germany"), ("GR", "Greece"), ("HK", "Hong Kong"), ("HU", "Hungary"),
   ("IN", "India"), ("ID", "Indonesia"), ("IE", "Ireland"), ("IL", "Israel"),
   ("IT", "Italy"), ("JP", "Japan"), ("JO", "Jordan"), ("KZ", "Kazakhstan"),
   ("KE", "Kenya"), ("KR", "South Korea"), ("LA", "Laos"), ("LV", "Latvia"),
   ("LT", "Lithuania"), ("LU", "Luxembourg"), ("MY", "Malaysia"), ("MX", "Mexico"),
   ("NL", "Netherlands"), ("NZ", "New Zealand"), ("NG", "Nigeria"), ("NO", "Norway"),
   ("PK", "Pakistan"), ("PE", "Peru"), ("PH", "Philippines"), ("PL", "Poland"),
   ("PT", "Portugal"), ("RO", "Romania"), ("RU", "Russia"), ("SA", "Saudi Arabia"),
   ("SG", "Singapore"), ("SK", "Slovakia"), ("ZA", "South Africa"), ("ES", "Spain"),
   ("SE", "Sweden"), ("CH", "Switzerland"), ("TW", "Taiwan"), ("TH", "Thailand"),
   ("TR", "Turkey"), ("UA", "Ukraine"), ("GB", "United Kingdom"), ("US", "United States"),
   ("VN", "Vietnam")]

/-- One metadata row of `paw-print-repository.csv`. -/
structure Row where
  objectid : String
  title : String
  date : String
  time : String
  description : String
  subject : String
  species : String
  location : String
  country : String
  latitude : String
  longitude : String
  type : String
  format : String
  display_template : String
  object_location : String
  image_small : String
  image_thumb : String
  spotter : String
  source_file : String
deriving Inhabited, DecidableEq

/-- The geocode cache: a flat `"lat,lon" ↦ [location, country]` dictionary. -/
abbrev GeoCache := List (String × (String × String))

/-- One reverse-geocoder result (`name`/`cc` fields of the first hit). -/
structure GeoResult where
  name : String
  cc : String

/-- Everything external that `generate_paw_collection.main` consults. -/
structure GenEnv where
  srcExists : String → Bool
  img : String → PyImage
  srcSize : String → Nat
  destExists : String → Bool
  destSize : String → Nat
  geocode : String × String → GeoResult
  annMap : List (String × String)
  sidecarExists : String → Bool
  sidecarRead : String → Option (List (String × Bool))

/-- Result of the geo-cache block for one coordinate pair: resolved location
and country, the updated cache, and the list of geocoder calls made (empty
on a hit or when a coordinate is missing). -/
structure GeoStep where
  location : String
  country : String
  cache : GeoCache
  calls : List String
deriving DecidableEq

/-- The cache-or-geocode block of the main loop (a fresh key is appended, as
Python dictionary assignment on an absent key does). -/
def geoLookup (env : GenEnv) (cache : GeoCache) (lat lon : String) : GeoStep :=
  if lat ≠ "" ∧ lon ≠ "" then
    let key := lat ++ "," ++ lon
    match List.lookup key cache with
    | some lc => ⟨lc.1, lc.2, cache, []⟩
    | none =>
      let r := env.geocode (lat, lon)
      let location := if r.name ≠ "" then r.name ++ ", " ++ r.cc else r.cc
      let cname := (List.lookup r.cc CC_TO_NAME).getD r.cc
      ⟨location, cname, cache ++ [(key, (location, cname))], [key]⟩
  else ⟨"", "", cache, []⟩

/-- The metadata row built for item `i` (1-based) with source path `p`. -/
def genRow (env : GenEnv) (i : Nat) (p : String) (location country lat lon : String) : Row :=
  let date := extract_date p (some (env.img p))
  { objectid := "paw_" ++ pad3 i
    title := "Paw Print " ++ pyStrNat i ++ (if date ≠ "" then " (" ++ date ++ ")" else "")
    date := date
    time := extract_time (env.img p)
    description := ""
    subject := ""
    species := _read_species p env.annMap env.sidecarExists env.sidecarRead
    location := location
    country := country
    latitude := lat
    longitude := lon
    type := "Image"
    format := "image/jpeg"
    display_template := "image"
    object_location := "/objects/paw_" ++ pad3 i ++ ".jpg"
    image_small := "/objects/small/paw_" ++ pad3 i ++ "_sm.jpg"
    image_thumb := "/objects/thumbs/paw_" ++ pad3 i ++ "_th.jpg"
    spotter := extract_spotter (env.img p)
    source_file := p }

/-- State threaded through the main loop of `generate_paw_collection`. -/
structure GenState where
  cache : GeoCache
  geoCalls : List String
  rows : List Row
  errors : List String
  warnings : List String
  copies : List (String × String)
  staleDeleted : List String

/-- One iteration of the main loop: a missing source is warned about and
recorded; an existing one is copied to `objects/paw_NNN.jpg` (wiping stale
derivatives when the size changed), geolocated through the cache, and given
exactly one metadata row. -/
def genStep (env : GenEnv) (st : GenState) (ip : Nat × String) : GenState :=
  let i := ip.1
  let p := ip.2
  if env.srcExists p then
    let oid := "paw_" ++ pad3 i
    let destName := oid ++ ".jpg"
    let changed := !env.destExists ("objects/" ++ destName) ||
      (env.srcSize p != env.destSize ("objects/" ++ destName))
    let stale := if changed then
        ["objects/small/" ++ oid ++ "_sm.jpg", "objects/thumbs/" ++ oid ++ "_th.jpg"]
      else []
    let ll := extract_gps (env.img p)
    let g := geoLookup env st.cache ll.1 ll.2
    { st with
      copies := st.copies ++ [(p, "objects/" ++ destName)]
      staleDeleted := st.staleDeleted ++ stale
      cache := g.cache
      geoCalls := st.geoCalls ++ g.calls
      rows := st.rows ++ [genRow env i p g.location g.country ll.1 ll.2] }
  else
    { st with
      warnings := st.warnings ++ [warnNotFound p]
      errors := st.errors ++ [p] }

/-- The sort key `extract_date(p, Path(p)) or "0000"`. -/
def dateKey (env : GenEnv) (p : String) : String :=
  let d := extract_date p (some (env.img p))
  if d = "" then "0000" else d

/-- The worklist after `paths.sort(key=...)`: stably sorted by date key. -/
def sortedPaths (env : GenEnv) (raw : List String) : List String :=
  stableSort (fun a b => pyStrLe (dateKey env a) (dateKey env b)) (loadPaths raw)

/-- Observable result of one `generate_paw_collection.main` run: the
metadata CSV (header and rows), the flushed geo cache, and the logs of
geocoder calls, skipped paths, warnings, copies and derivative wipes. -/
structure GenOutput where
  header : List String
  rows : List Row
  cacheFile : GeoCache
  geoCalls : List String
  errors : List String
  warnings : List String
  copies : List (String × String)
  staleDeleted : List String
deriving Inhabited

/-- The per-item loop of `generate_paw_collection.main`, enumerating the
date-sorted worklist from 1. -/
def genFold (env : GenEnv) (raw : List String) (cache0 : GeoCache) : GenState :=
  ((sortedPaths env raw).enumFrom 1).foldl (genStep env) ⟨cache0, [], [], [], [], [], []⟩

/-- `generate_paw_collection.main` up to the external subprocess calls: load
and filter the worklist (empty → return before writing anything, modelled by
`none`), sort it by inferred date, run the per-item loop, then flush the geo
cache and write the metadata CSV under `FIELDNAMES`. -/
def runGenerate (env : GenEnv) (raw : List String) (cache0 : GeoCache) : Option GenOutput :=
  let paths := loadPaths raw
  if paths.isEmpty then none
  else
    let st := genFold env raw cache0
    some ⟨FIELDNAMES, st.rows, st.cache, st.geoCalls, st.errors, st.warnings, st.copies,
      st.staleDeleted⟩

/-- The fields of a metadata row that claim C4 constrains:
objectid, object_location, type, format and source_file. -/
def projRow (r : Row) : String × String × String × String × String :=
  (r.objectid, r.object_location, r.type, r.format, r.source_file)

/-- The values claim C4 prescribes for those fields of the row of the item
at 1-based position `ip.1` of the sorted worklist. -/
def claimedFields (ip : Nat × String) : String × String × String × String × String :=
  ("paw_" ++ pad3 ip.1, "/objects/paw_" ++ pad3 ip.1 ++ ".jpg", "Image", "image/jpeg", ip.2)

/-- The copy operation claim C4 prescribes for the item at 1-based position
`ip.1`: its source path is copied to `objects/paw_NNN.jpg`. -/
def claimedCopy (ip : Nat × String) : String × String :=
  (ip.2, "objects/" ++ ("paw_" ++ pad3 ip.1 ++ ".jpg"))

/-! ### Concrete fixtures used to evaluate the theorems on sample inputs -/

/-- A `GenEnv` whose images carry no usable metadata, no annotation map and
no geocoder results, parameterised by which source paths exist. -/
def egEnv (ex : String → Bool) : GenEnv :=
  ⟨ex, fun _ => ⟨true, none, none⟩, fun _ => 0, fun _ => false, fun _ => 0,
    fun _ => ⟨"", ""⟩, [], fun _ => false, fun _ => none⟩

/-- An image carrying a complete EXIF `GPSInfo` dictionary. -/
def egGpsImage : PyImage :=
  ⟨true, some [("GPSInfo", .gps
    [("GPSLatitude", .triple 52 30 0), ("GPSLatitudeRef", .str "N"),
     ("GPSLongitude", .triple 13 24 0), ("GPSLongitudeRef", .str "E")])], none⟩

/-! ## Helper lemmas: decimal rendering -/

theorem decValue_append (l : List Char) (c : Char) :
    decValue (l ++ [c]) = decValue l * 10 + digitVal c := by
  simp [decValue, List.foldl_append]

theorem digitVal_digitChar {d : Nat} (h : d < 10) : digitVal (digitChar d) = d := by
  interval_cases d <;> rfl

theorem decValue_natDigitsAux : ∀ {fuel n : Nat}, n ≤ fuel →
    decValue (natDigitsAux fuel n) = n := by
  intro fuel
  induction fuel with
  | zero =>
    intro n hn
    have : n = 0 := Nat.le_zero.mp hn
    subst this
    simp [natDigitsAux, decValue, digitVal_digitChar]
  | succ fuel ih =>
    intro n hn
    by_cases h : n < 10
    · simp [natDigitsAux, h, decValue, digitVal_digitChar h]
    · have hdiv : n / 10 < n := Nat.div_lt_self (by omega) (by omega)
      have : natDigitsAux (fuel + 1) n =
          natDigitsAux fuel (n / 10) ++ [digitChar (n % 10)] := by
        rw [natDigitsAux]
        simp [h]
      rw [this, decValue_append, ih (by omega), digitVal_digitChar (Nat.mod_lt n (by omega))]
      omega

theorem decValue_natDigits (n : Nat) : decValue (natDigits n) = n :=
  decValue_natDigitsAux le_rfl

theorem pyStrNat_inj : Function.Injective pyStrNat := by
  intro a b h
  have hd : natDigits a = natDigits b := congrArg String.data h
  calc a = decValue (natDigits a) := (decValue_natDigits a).symm
    _ = decValue (natDigits b) := by rw [hd]
    _ = b := decValue_natDigits b

/-! ## Helper lemmas: `unique_name` -/

theorem candName_inj (stem suffix : String) : Function.Injective (candName stem suffix) := by
  intro a b h
  unfold candName at h
  have hd := congrArg String.data h
  simp only [String.data_append] at hd
  have h2 := List.append_cancel_right hd
  have h3 := List.append_cancel_left h2
  calc a = decValue (natDigits a) := (decValue_natDigits a).symm
    _ = decValue (natDigits b) := by
        have : (pyStrNat a).data = (pyStrNat b).data := h3
        exact congrArg decValue this
    _ = b := decValue_natDigits b

theorem exists_fresh (stem suffix : String) (taken : List String) (i : Nat) :
    ∃ j, j < taken.length + 1 ∧ candName stem suffix (i + j) ∉ taken := by
  by_contra hc
  push_neg at hc
  have hinj : Function.Injective (fun j => candName stem suffix (i + j)) := by
    intro a b h
    have := candName_inj stem suffix h
    omega
  have hL : ((List.range (taken.length + 1)).map
      (fun j => candName stem suffix (i + j))).Nodup :=
    (List.nodup_range _).map hinj
  have hsub : ((List.range (taken.length + 1)).map
      (fun j => candName stem suffix (i + j))) ⊆ taken := by
    intro x hx
    obtain ⟨j, hj, rfl⟩ := List.mem_map.mp hx
    exact hc j (List.mem_range.mp hj)
  have hle := (hL.subperm hsub).length_le
  simp at hle

theorem uniqueNameAux_spec (stem suffix : String) (taken : List String) :
    ∀ fuel i, (∃ j, j < fuel ∧ candName stem suffix (i + j) ∉ taken) →
    ∃ k, uniqueNameAux stem suffix taken fuel i = candName stem suffix (i + k) ∧
      candName stem suffix (i + k) ∉ taken ∧
      ∀ j < k, candName stem suffix (i + j) ∈ taken := by
  intro fuel
  induction fuel with
  | zero =>
    rintro i ⟨j, hj, -⟩
    exact absurd hj (Nat.not_lt_zero j)
  | succ fuel ih =>
    rintro i ⟨j, hj, hfree⟩
    by_cases hmem : candName stem suffix i ∈ taken
    · have hj0 : j ≠ 0 := by
        rintro rfl
        simp only [Nat.add_zero] at hfree
        exact hfree hmem
      obtain ⟨j', rfl⟩ : ∃ j', j = j' + 1 := ⟨j - 1, by omega⟩
      obtain ⟨k, hk1, hk2, hk3⟩ := ih (i + 1)
        ⟨j', by omega, by rwa [show i + 1 + j' = i + (j' + 1) by omega]⟩
      refine ⟨k + 1, ?_, ?_, ?_⟩
      · rw [uniqueNameAux]
        simp only [hmem, if_true]
        rw [hk1]
        congr 1
        omega
      · rwa [show i + (k + 1) = i + 1 + k by omega]
      · intro m hm
        match m with
        | 0 => simpa using hmem
        | m' + 1 =>
          rw [show i + (m' + 1) = i + 1 + m' by omega]
          exact hk3 m' (by omega)
    · refine ⟨0, ?_, by simpa using hmem, by omega⟩
      rw [uniqueNameAux]
      simp [hmem]

theorem unique_name_spec (wanted : String) (taken : List String) :
    ∃ k, unique_name wanted taken = nameSeq wanted k ∧ nameSeq wanted k ∉ taken ∧
      ∀ j < k, nameSeq wanted j ∈ taken := by
  by_cases h : wanted ∈ taken
  · obtain ⟨jf, hjf, hfree⟩ := exists_fresh (pyStem wanted) (pySuffix wanted) taken 2
    obtain ⟨k, h1, h2, h3⟩ := uniqueNameAux_spec (pyStem wanted) (pySuffix wanted) taken
      (taken.length + 1) 2 ⟨jf, hjf, hfree⟩
    refine ⟨k + 1, ?_, ?_, ?_⟩
    · rw [unique_name, if_pos h, h1]
      show candName _ _ (2 + k) = nameSeq wanted (k + 1)
      rw [nameSeq]
      congr 1
      omega
    · show nameSeq wanted (k + 1) ∉ taken
      rw [nameSeq, show k + 2 = 2 + k by omega]
      exact h2
    · intro j hj
      match j with
      | 0 => exact h
      | j' + 1 =>
        show candName _ _ (j' + 2) ∈ taken
        rw [show j' + 2 = 2 + j' by omega]
        exact h3 j' (by omega)
  · exact ⟨0, by rw [unique_name, if_neg h]; rfl, h, by omega⟩

theorem unique_name_not_mem (wanted : String) (taken : List String) :
    unique_name wanted taken ∉ taken := by
  obtain ⟨k, h1, h2, -⟩ := unique_name_spec wanted taken
  rw [h1]
  exact h2

/-! ## Helper lemmas: string order and stable sort -/

theorem lexLe_refl : ∀ a : List Char, lexLe a a = true := by
  intro a
  induction a with
  | nil => rfl
  | cons x xs ih => simp [lexLe, ih]

theorem lexLe_total : ∀ a b : List Char, lexLe a b = true ∨ lexLe b a = true := by
  intro a
  induction a with
  | nil => intro b; left; rfl
  | cons x xs ih =>
    intro b
    match b with
    | [] => right; rfl
    | y :: ys =>
      by_cases h1 : x.toNat < y.toNat
      · left; simp [lexLe, h1]
      · by_cases h2 : x.toNat = y.toNat
        · rcases ih ys with h | h
          · left; simp [lexLe, h1, h2, h]
          · right; simp [lexLe, h2.symm, show ¬ y.toNat < x.toNat by omega, h]
        · right; simp [lexLe, show y.toNat < x.toNat by omega]

theorem lexLe_trans : ∀ a b c : List Char,
    lexLe a b = true → lexLe b c = true → lexLe a c = true := by
  intro a
  induction a with
  | nil => intro b c _ _; rfl
  | cons x xs ih =>
    intro b c hab hbc
    match b, c with
    | [], _ => simp [lexLe] at hab
    | _ :: _, [] => simp [lexLe] at hbc
    | y :: ys, z :: zs =>
      by_cases h1 : x.toNat < y.toNat
      · by_cases h2 : y.toNat < z.toNat
        · simp [lexLe, show x.toNat < z.toNat by omega]
        · by_cases h3 : y.toNat = z.toNat
          · simp [lexLe, show x.toNat < z.toNat by omega]
          · simp [lexLe, h2, h3] at hbc
      · by_cases h4 : x.toNat = y.toNat
        · by_cases h2 : y.toNat < z.toNat
          · simp [lexLe, show x.toNat < z.toNat by omega]
          · by_cases h3 : y.toNat = z.toNat
            · have hab' : lexLe xs ys = true := by
                simpa [lexLe, h1, h4] using hab
              have hbc' : lexLe ys zs = true := by
                simpa [lexLe, h2, h3] using hbc
              simp [lexLe, show ¬ x.toNat < z.toNat by omega, show x.toNat = z.toNat by omega,
                ih ys zs hab' hbc']
            · simp [lexLe, h2, h3] at hbc
        · simp [lexLe, h1, h4] at hab

theorem pyStrLe_total (a b : String) : pyStrLe a b = true ∨ pyStrLe b a = true :=
  lexLe_total a.data b.data

theorem pyStrLe_trans {a b c : String} (h1 : pyStrLe a b = true) (h2 : pyStrLe b c = true) :
    pyStrLe a c = true :=
  lexLe_trans a.data b.data c.data h1 h2

theorem mem_stableInsert (le : α → α → Bool) (a : α) :
    ∀ (l : List α) (x : α), x ∈ stableInsert le a l ↔ x = a ∨ x ∈ l := by
  intro l
  induction l with
  | nil => intro x; simp [stableInsert]
  | cons b bs ih =>
    intro x
    by_cases h : le b a = true
    · rw [stableInsert, if_pos h]
      simp only [List.mem_cons, ih]
      tauto
    · rw [stableInsert, if_neg h]
      simp only [List.mem_cons]

theorem pairwise_stableInsert (le : α → α → Bool)
    (htrans : ∀ a b c, le a b = true → le b c = true → le a c = true)
    (htot : ∀ a b, le a b = true ∨ le b a = true) (a : α) :
    ∀ l : List α, List.Pairwise (fun x y => le x y = true) l →
    List.Pairwise (fun x y => le x y = true) (stableInsert le a l) := by
  intro l
  induction l with
  | nil => intro _; simp [stableInsert]
  | cons b bs ih =>
    intro h
    rcases List.pairwise_cons.mp h with ⟨hb, hbs⟩
    by_cases hle : le b a = true
    · rw [stableInsert, if_pos hle]
      refine List.pairwise_cons.mpr ⟨?_, ih hbs⟩
      intro x hx
      rcases (mem_stableInsert le a bs x).mp hx with rfl | hxm
      · exact hle
      · exact hb x hxm
    · rw [stableInsert, if_neg hle]
      refine List.pairwise_cons.mpr ⟨?_, h⟩
      intro x hx
      rcases List.mem_cons.mp hx with rfl | hxm
      · exact (htot a x).resolve_right hle
      · exact htrans a b x ((htot a b).resolve_right hle) (hb x hxm)

theorem pairwise_foldl_stableInsert (le : α → α → Bool)
    (htrans : ∀ a b c, le a b = true → le b c = true → le a c = true)
    (htot : ∀ a b, le a b = true ∨ le b a = true) :
    ∀ (l acc : List α), List.Pairwise (fun x y => le x y = true) acc →
    List.Pairwise (fun x y => le x y = true)
      (l.foldl (fun acc a => stableInsert le a acc) acc) := by
  intro l
  induction l with
  | nil => intro acc h; exact h
  | cons a as ih =>
    intro acc h
    exact ih (stableInsert le a acc) (pairwise_stableInsert le htrans htot a acc h)

theorem pairwise_stableSort (le : α → α → Bool)
    (htrans : ∀ a b c, le a b = true → le b c = true → le a c = true)
    (htot : ∀ a b, le a b = true ∨ le b a = true) (l : List α) :
    List.Pairwise (fun x y => le x y = true) (stableSort le l) :=
  pairwise_foldl_stableInsert le htrans htot l [] (by simp)

theorem stableInsert_perm (le : α → α → Bool) (a : α) :
    ∀ l : List α, (stableInsert le a l).Perm (a :: l) := by
  intro l
  induction l with
  | nil => exact List.Perm.refl _
  | cons b bs ih =>
    by_cases h : le b a = true
    · rw [stableInsert, if_pos h]
      exact (ih.cons b).trans (List.Perm.swap a b bs)
    · rw [stableInsert, if_neg h]

theorem foldl_stableInsert_perm (le : α → α → Bool) :
    ∀ (l acc : List α), (l.foldl (fun acc a => stableInsert le a acc) acc).Perm (l ++ acc) := by
  intro l
  induction l with
  | nil => intro acc; simp
  | cons a as ih =>
    intro acc
    refine (ih (stableInsert le a acc)).trans ?_
    refine (List.Perm.append_left as (stableInsert_perm le a acc)).trans ?_
    refine List.perm_middle.trans ?_
    simp

theorem stableSort_perm (le : α → α → Bool) (l : List α) : (stableSort le l).Perm l := by
  have := foldl_stableInsert_perm le l []
  simpa [stableSort] using this

/-! ## Helper lemmas: association-list lookup -/

theorem lookup_eq_none_of_not_mem_keys {β : Type} {l : List (String × β)} {k : String}
    (h : k ∉ l.map Prod.fst) : List.lookup k l = none := by
  induction l with
  | nil => rfl
  | cons e t ih =>
    simp only [List.map_cons, List.mem_cons, not_or] at h
    have hne : (k == e.1) = false := beq_eq_false_iff_ne.mpr h.1
    cases e with
    | mk a b =>
      rw [List.lookup_cons, hne]
      exact ih h.2

theorem lookup_eq_some_of_mem_of_nodup {β : Type} {l : List (String × β)} {k : String} {v : β}
    (hnd : (l.map Prod.fst).Nodup) (h : (k, v) ∈ l) : List.lookup k l = some v := by
  induction l with
  | nil => exact absurd h (List.not_mem_nil _)
  | cons e t ih =>
    simp only [List.map_cons, List.nodup_cons] at hnd
    rcases List.mem_cons.mp h with rfl | hmem
    · rw [List.lookup_cons, beq_self_eq_true]
    · have hk : ¬ k = e.1 := fun hke =>
        hnd.1 (hke ▸ List.mem_map.mpr ⟨(k, v), hmem, rfl⟩)
      have hne : (k == e.1) = false := beq_eq_false_iff_ne.mpr hk
      cases e with
      | mk a b =>
        rw [List.lookup_cons, hne]
        exact ih hnd.2 hmem

theorem mem_keys_of_lookup_isSome {β : Type} {l : List (String × β)} {k : String}
    (h : (List.lookup k l).isSome = true) : k ∈ l.map Prod.fst := by
  by_contra hc
  rw [lookup_eq_none_of_not_mem_keys hc] at h
  exact Bool.noConfusion h

/-! ## Helper lemmas: the removal phase of `setup_annotation` -/

theorem removeFold_kept (paths : List String) :
    ∀ (l : List (String × String)) (acc : List (String × String) × List String × Nat),
    (l.foldl (removeEntry paths) acc).1 = acc.1 ++ l.filter (fun e => e.1 ∈ paths) := by
  intro l
  induction l with
  | nil => intro acc; simp
  | cons e t ih =>
    intro acc
    by_cases h : e.1 ∈ paths
    · rw [List.foldl_cons, ih, removeEntry, if_pos h]
      simp [h]
    · rw [List.foldl_cons, ih, removeEntry, if_neg h]
      simp [h]

theorem removePhase_mapping (paths : List String) (map0 : List (String × String))
    (dir0 : List String) :
    (removePhase paths map0 dir0).1 = map0.filter (fun e => e.1 ∈ paths) := by
  rw [removePhase, removeFold_kept]
  simp

theorem removeEntry_dir_subset (paths : List String)
    (acc : List (String × String) × List String × Nat) (e : String × String) :
    (removeEntry paths acc e).2.1 ⊆ acc.2.1 := by
  by_cases h : e.1 ∈ paths
  · rw [removeEntry, if_pos h]
    exact fun x hx => hx
  · rw [removeEntry, if_neg h]
    intro x hx
    exact List.mem_of_mem_filter (List.mem_of_mem_filter hx)

theorem removeFold_dir_subset (paths : List String) :
    ∀ (l : List (String × String)) (acc : List (String × String) × List String × Nat),
    (l.foldl (removeEntry paths) acc).2.1 ⊆ acc.2.1 := by
  intro l
  induction l with
  | nil => intro acc; exact fun x hx => hx
  | cons e t ih =>
    intro acc
    exact fun x hx => removeEntry_dir_subset paths acc e (ih (removeEntry paths acc e) hx)

theorem removeEntry_deletes (paths : List String)
    (acc : List (String × String) × List String × Nat) (e : String × String)
    (h : e.1 ∉ paths) :
    e.2 ∉ (removeEntry paths acc e).2.1 ∧
    (pyStem e.2 ++ ".json") ∉ (removeEntry paths acc e).2.1 := by
  rw [removeEntry, if_neg h]
  constructor
  · intro hx
    have := (List.mem_filter.mp (List.mem_of_mem_filter hx)).2
    simp at this
  · intro hx
    have := (List.mem_filter.mp hx).2
    simp at this

theorem removePhase_deletes {paths : List String} {map0 : List (String × String)}
    {dir0 : List String} {s a : String} (hmem : (s, a) ∈ map0) (hs : s ∉ paths) :
    a ∉ (removePhase paths map0 dir0).2.1 ∧
    (pyStem a ++ ".json") ∉ (removePhase paths map0 dir0).2.1 := by
  obtain ⟨l1, l2, rfl⟩ := List.append_of_mem hmem
  rw [removePhase, List.foldl_append, List.foldl_cons]
  set acc1 := l1.foldl (removeEntry paths) ([], dir0, 0) with hacc1
  have hdel := removeEntry_deletes paths acc1 (s, a) hs
  constructor
  · exact fun hx => hdel.1 (removeFold_dir_subset paths l2 _ hx)
  · exact fun hx => hdel.2 (removeFold_dir_subset paths l2 _ hx)

theorem removePhase_lookup_none {paths : List String} {map0 : List (String × String)}
    {dir0 : List String} {s : String} (hs : s ∉ paths) :
    List.lookup s (removePhase paths map0 dir0).1 = none := by
  rw [removePhase_mapping]
  apply lookup_eq_none_of_not_mem_keys
  intro hc
  obtain ⟨e, he, rfl⟩ := List.mem_map.mp hc
  exact hs (by simpa using (List.mem_filter.mp he).2)

theorem removePhase_lookup_kept {paths : List String} {map0 : List (String × String)}
    {dir0 : List String} {s a : String} (hnd : (map0.map Prod.fst).Nodup)
    (hmem : (s, a) ∈ map0) (hs : s ∈ paths) :
    List.lookup s (removePhase paths map0 dir0).1 = some a := by
  rw [removePhase_mapping]
  apply lookup_eq_some_of_mem_of_nodup
  · exact ((List.filter_sublist map0).map Prod.fst).nodup hnd
  · exact List.mem_filter.mpr ⟨hmem, by simpa using hs⟩

/-! ## Helper lemmas: the copy loop of `setup_annotation` -/

theorem warnNotFound_inj : Function.Injective warnNotFound := by
  intro a b h
  have hd := congrArg String.data h
  simp only [warnNotFound, String.data_append] at hd
  have := List.append_cancel_left hd
  cases a with
  | mk da =>
    cases b with
    | mk db => exact congrArg String.mk this

theorem setupAdd_skip {f : String → Bool} {st : SetupState} {p : String}
    (h : (List.lookup p st.mapping).isSome = true) :
    setupAdd f st p = { st with skipCount := st.skipCount + 1 } := by
  rw [setupAdd, if_pos h]

theorem setupAdd_new {f : String → Bool} {st : SetupState} {p : String}
    (h1 : (List.lookup p st.mapping).isSome = false) (h2 : f p = true) :
    setupAdd f st p = { st with
      dirFiles := List.insert (unique_name (pyName p) st.taken) st.dirFiles
      mapping := st.mapping ++ [(p, unique_name (pyName p) st.taken)]
      taken := unique_name (pyName p) st.taken :: st.taken
      copies := st.copies ++ [(p, "annotation/" ++ unique_name (pyName p) st.taken)]
      newCount := st.newCount + 1 } := by
  rw [setupAdd, if_neg (by simp [h1]), if_pos h2]

theorem setupAdd_err {f : String → Bool} {st : SetupState} {p : String}
    (h1 : (List.lookup p st.mapping).isSome = false) (h2 : f p = false) :
    setupAdd f st p = { st with
      warnings := st.warnings ++ [warnNotFound p]
      errorCount := st.errorCount + 1 } := by
  rw [setupAdd, if_neg (by simp [h1]), if_neg (by simp [h2])]

theorem lookup_append_singleton_ne {β : Type} {l : List (String × β)} {s q : String} {v : β}
    (h : ¬ q = s) : List.lookup s (l ++ [(q, v)]) = List.lookup s l := by
  rw [List.lookup_append]
  have : List.lookup s [(q, v)] = none := by
    rw [List.lookup_cons, beq_eq_false_iff_ne.mpr (fun hsq => h hsq.symm)]
    rfl
  rw [this]
  cases List.lookup s l <;> rfl

theorem setupAddFold_lookup_some {f : String → Bool} {s : String} {a : String} :
    ∀ (l : List String) (st : SetupState), List.lookup s st.mapping = some a →
    List.lookup s (List.foldl (setupAdd f) st l).mapping = some a := by
  intro l
  induction l with
  | nil => intro st h; exact h
  | cons q t ih =>
    intro st h
    rw [List.foldl_cons]
    apply ih
    by_cases h1 : (List.lookup q st.mapping).isSome
    · rw [setupAdd_skip h1]
      exact h
    · have h1' : (List.lookup q st.mapping).isSome = false :=
        Bool.eq_false_iff.mpr h1
      by_cases h2 : f q = true
      · rw [setupAdd_new h1' h2]
        have hqs : ¬ q = s := by
          rintro rfl
          rw [h] at h1'
          exact Bool.noConfusion h1'
        show List.lookup s (st.mapping ++ [(q, _)]) = some a
        rw [lookup_append_singleton_ne hqs, h]
      · rw [setupAdd_err h1' (by simpa using h2)]
        exact h

theorem setupAddFold_mapped_no_copy {f : String → Bool} {s : String} {a : String} :
    ∀ (l : List String) (st : SetupState), List.lookup s st.mapping = some a →
    (∀ d, (s, d) ∉ st.copies) →
    ∀ d, (s, d) ∉ (List.foldl (setupAdd f) st l).copies := by
  intro l
  induction l with
  | nil => intro st _ hc; exact hc
  | cons q t ih =>
    intro st h hc
    rw [List.foldl_cons]
    by_cases h1 : (List.lookup q st.mapping).isSome
    · rw [setupAdd_skip h1]
      exact ih _ h hc
    · have h1' : (List.lookup q st.mapping).isSome = false :=
        Bool.eq_false_iff.mpr h1
      by_cases h2 : f q = true
      · rw [setupAdd_new h1' h2]
        have hqs : ¬ q = s := by
          rintro rfl
          rw [h] at h1'
          exact Bool.noConfusion h1'
        refine ih _ ?_ ?_
        · show List.lookup s (st.mapping ++ [(q, _)]) = some a
          rw [lookup_append_singleton_ne hqs, h]
        · intro d hd
          rcases List.mem_append.mp hd with hd | hd
          · exact hc d hd
          · rcases List.mem_singleton.mp hd with heq
            exact hqs (congrArg Prod.fst heq).symm
      · rw [setupAdd_err h1' (by simpa using h2)]
        exact ih _ h hc

theorem setupAddFold_missing {f : String → Bool} {p : String} (hf : f p = false) :
    ∀ (l : List String) (st : SetupState), List.lookup p st.mapping = none →
    List.lookup p (List.foldl (setupAdd f) st l).mapping = none ∧
    (∀ d, (p, d) ∈ (List.foldl (setupAdd f) st l).copies → (p, d) ∈ st.copies) ∧
    (List.foldl (setupAdd f) st l).warnings.count (warnNotFound p)
      = st.warnings.count (warnNotFound p) + l.count p := by
  intro l
  induction l with
  | nil =>
    intro st h
    exact ⟨h, fun d hd => hd, by simp⟩
  | cons q t ih =>
    intro st h
    rw [List.foldl_cons]
    by_cases hqp : q = p
    · subst hqp
      have h1' : (List.lookup q st.mapping).isSome = false := by
        rw [h]; rfl
      rw [setupAdd_err h1' hf]
      obtain ⟨ih1, ih2, ih3⟩ := ih { st with
        warnings := st.warnings ++ [warnNotFound q]
        errorCount := st.errorCount + 1 } h
      refine ⟨ih1, fun d hd => ih2 d hd, ?_⟩
      rw [ih3]
      show List.count (warnNotFound q) (st.warnings ++ [warnNotFound q]) + _ = _
      rw [List.count_append, List.count_cons_self, List.count_nil, List.count_cons_self]
      omega
    · have hpq : p ≠ q := fun hh => hqp hh.symm
      have hcount : List.count p (q :: t) = List.count p t := List.count_cons_of_ne hpq t
      by_cases h1 : (List.lookup q st.mapping).isSome
      · rw [setupAdd_skip h1]
        obtain ⟨ih1, ih2, ih3⟩ := ih { st with skipCount := st.skipCount + 1 } h
        refine ⟨ih1, fun d hd => ih2 d hd, ?_⟩
        rw [ih3, hcount]
      · have h1' : (List.lookup q st.mapping).isSome = false :=
          Bool.eq_false_iff.mpr h1
        by_cases h2 : f q = true
        · rw [setupAdd_new h1' h2]
          have hmap : List.lookup p ({ st with
              dirFiles := List.insert (unique_name (pyName q) st.taken) st.dirFiles
              mapping := st.mapping ++ [(q, unique_name (pyName q) st.taken)]
              taken := unique_name (pyName q) st.taken :: st.taken
              copies := st.copies ++ [(q, "annotation/" ++ unique_name (pyName q) st.taken)]
              newCount := st.newCount + 1 } : SetupState).mapping = none := by
            show List.lookup p (st.mapping ++ [(q, unique_name (pyName q) st.taken)]) = none
            rw [lookup_append_singleton_ne hqp, h]
          obtain ⟨ih1, ih2, ih3⟩ := ih { st with
              dirFiles := List.insert (unique_name (pyName q) st.taken) st.dirFiles
              mapping := st.mapping ++ [(q, unique_name (pyName q) st.taken)]
              taken := unique_name (pyName q) st.taken :: st.taken
              copies := st.copies ++ [(q, "annotation/" ++ unique_name (pyName q) st.taken)]
              newCount := st.newCount + 1 } hmap
          refine ⟨ih1, ?_, ?_⟩
          · intro d hd
            rcases List.mem_append.mp (ih2 d hd) with hd' | hd'
            · exact hd'
            · exact absurd (congrArg Prod.fst (List.mem_singleton.mp hd')).symm hqp
          · rw [ih3, hcount]
        · rw [setupAdd_err h1' (Bool.eq_false_iff.mpr h2)]
          obtain ⟨ih1, ih2, ih3⟩ := ih { st with
            warnings := st.warnings ++ [warnNotFound q]
            errorCount := st.errorCount + 1 } h
          refine ⟨ih1, fun d hd => ih2 d hd, ?_⟩
          rw [ih3, hcount]
          show List.count (warnNotFound p) (st.warnings ++ [warnNotFound q]) + _ = _
          rw [List.count_append, List.count_cons_of_ne (fun hh => hqp (warnNotFound_inj hh).symm),
            List.count_nil]
          omega

theorem setupAddFold_warnings_errorCount {f : String → Bool} :
    ∀ (l : List String) (st : SetupState), ∃ w,
    (List.foldl (setupAdd f) st l).warnings = st.warnings ++ w ∧
    (List.foldl (setupAdd f) st l).errorCount = st.errorCount + w.length := by
  intro l
  induction l with
  | nil => intro st; exact ⟨[], by simp, by simp⟩
  | cons q t ih =>
    intro st
    rw [List.foldl_cons]
    by_cases h1 : (List.lookup q st.mapping).isSome
    · rw [setupAdd_skip h1]
      exact ih _
    · have h1' : (List.lookup q st.mapping).isSome = false :=
        Bool.eq_false_iff.mpr h1
      by_cases h2 : f q = true
      · rw [setupAdd_new h1' h2]
        exact ih _
      · rw [setupAdd_err h1' (by simpa using h2)]
        obtain ⟨w, hw1, hw2⟩ := ih { st with
          warnings := st.warnings ++ [warnNotFound q]
          errorCount := st.errorCount + 1 }
        refine ⟨[warnNotFound q] ++ w, ?_, ?_⟩
        · rw [hw1]
          simp
        · rw [hw2]
          simp only [List.length_append, List.length_singleton]
          omega

theorem setupAddFold_values_nodup {f : String → Bool} :
    ∀ (l : List String) (st : SetupState),
    (∀ v ∈ st.mapping.map Prod.snd, v ∈ st.taken) →
    (st.mapping.map Prod.snd).Nodup →
    ((List.foldl (setupAdd f) st l).mapping.map Prod.snd).Nodup := by
  intro l
  induction l with
  | nil => intro st _ hnd; exact hnd
  | cons q t ih =>
    intro st hsub hnd
    rw [List.foldl_cons]
    by_cases h1 : (List.lookup q st.mapping).isSome
    · rw [setupAdd_skip h1]
      exact ih _ hsub hnd
    · have h1' : (List.lookup q st.mapping).isSome = false :=
        Bool.eq_false_iff.mpr h1
      by_cases h2 : f q = true
      · rw [setupAdd_new h1' h2]
        have hann := unique_name_not_mem (pyName q) st.taken
        apply ih
        · intro v hv
          simp only [List.map_append, List.map_cons, List.map_nil, List.mem_append,
            List.mem_singleton] at hv
          rcases hv with hv | hv
          · exact List.mem_cons_of_mem _ (hsub v hv)
          · rw [hv]
            exact List.mem_cons_self _ _
        · simp only [List.map_append, List.map_cons, List.map_nil]
          rw [List.nodup_append]
          refine ⟨hnd, List.nodup_singleton _, ?_⟩
          intro v hv hv'
          rcases List.mem_singleton.mp hv' with rfl
          exact hann (hsub _ hv)
      · rw [setupAdd_err h1' (by simpa using h2)]
        exact ih _ hsub hnd

/-! ## Helper lemmas: the main loop of `generate_paw_collection` -/

theorem genStep_missing {env : GenEnv} {st : GenState} {i : Nat} {p : String}
    (h : env.srcExists p = false) :
    genStep env st (i, p) = { st with
      warnings := st.warnings ++ [warnNotFound p]
      errors := st.errors ++ [p] } := by
  rw [genStep]
  simp only [h]
  rfl

theorem genFoldl_rows_proj (env : GenEnv) :
    ∀ (l : List (Nat × String)) (st : GenState),
    ((List.foldl (genStep env) st l).rows).map projRow
      = st.rows.map projRow ++ (l.filter (fun ip => env.srcExists ip.2)).map claimedFields := by
  intro l
  induction l with
  | nil => intro st; simp
  | cons ip t ih =>
    intro st
    rw [List.foldl_cons, ih]
    by_cases h : env.srcExists ip.2 = true
    · have hrows : (genStep env st ip).rows.map projRow
          = st.rows.map projRow ++ [claimedFields ip] := by
        cases ip with
        | mk i p => simp [genStep, h, genRow, projRow, claimedFields]
      rw [hrows, List.filter_cons_of_pos (by simpa using h), List.map_cons]
      simp
    · have h' : env.srcExists ip.2 = false := Bool.eq_false_iff.mpr h
      have hrows : (genStep env st ip).rows = st.rows := by
        cases ip with
        | mk i p => rw [genStep_missing h']
      rw [hrows, List.filter_cons_of_neg (by simp [h'])]

theorem genFoldl_errors (env : GenEnv) :
    ∀ (l : List (Nat × String)) (st : GenState),
    (List.foldl (genStep env) st l).errors
      = st.errors ++ (l.filter (fun ip => !env.srcExists ip.2)).map Prod.snd := by
  intro l
  induction l with
  | nil => intro st; simp
  | cons ip t ih =>
    intro st
    rw [List.foldl_cons, ih]
    by_cases h : env.srcExists ip.2 = true
    · have herr : (genStep env st ip).errors = st.errors := by
        cases ip with
        | mk i p => simp [genStep, h]
      rw [herr, List.filter_cons_of_neg (by simp [h])]
    · have h' : env.srcExists ip.2 = false := Bool.eq_false_iff.mpr h
      have herr : (genStep env st ip).errors = st.errors ++ [ip.2] := by
        cases ip with
        | mk i p => rw [genStep_missing h']
      rw [herr, List.filter_cons_of_pos (by simp [h']), List.map_cons]
      simp

theorem genFoldl_warnings (env : GenEnv) :
    ∀ (l : List (Nat × String)) (st : GenState),
    (List.foldl (genStep env) st l).warnings
      = st.warnings ++ (l.filter (fun ip => !env.srcExists ip.2)).map
          (fun ip => warnNotFound ip.2) := by
  intro l
  induction l with
  | nil => intro st; simp
  | cons ip t ih =>
    intro st
    rw [List.foldl_cons, ih]
    by_cases h : env.srcExists ip.2 = true
    · have hw : (genStep env st ip).warnings = st.warnings := by
        cases ip with
        | mk i p => simp [genStep, h]
      rw [hw, List.filter_cons_of_neg (by simp [h])]
    · have h' : env.srcExists ip.2 = false := Bool.eq_false_iff.mpr h
      have hw : (genStep env st ip).warnings = st.warnings ++ [warnNotFound ip.2] := by
        cases ip with
        | mk i p => rw [genStep_missing h']
      rw [hw, List.filter_cons_of_pos (by simp [h']), List.map_cons]
      simp

theorem genFoldl_copies (env : GenEnv) :
    ∀ (l : List (Nat × String)) (st : GenState),
    (List.foldl (genStep env) st l).copies
      = st.copies ++ (l.filter (fun ip => env.srcExists ip.2)).map claimedCopy := by
  intro l
  induction l with
  | nil => intro st; simp
  | cons ip t ih =>
    intro st
    rw [List.foldl_cons, ih]
    by_cases h : env.srcExists ip.2 = true
    · have hc : (genStep env st ip).copies = st.copies ++ [claimedCopy ip] := by
        cases ip with
        | mk i p => simp [genStep, h, claimedCopy]
      rw [hc, List.filter_cons_of_pos (by simpa using h), List.map_cons]
      simp
    · have h' : env.srcExists ip.2 = false := Bool.eq_false_iff.mpr h
      have hc : (genStep env st ip).copies = st.copies := by
        cases ip with
        | mk i p => rw [genStep_missing h']
      rw [hc, List.filter_cons_of_neg (by simp [h'])]

theorem geoLookup_cache_mono {env : GenEnv} {cache : GeoCache} {lat lon k : String}
    (h : (List.lookup k cache).isSome = true) :
    (List.lookup k (geoLookup env cache lat lon).cache).isSome = true := by
  simp only [geoLookup]
  by_cases hc : lat ≠ "" ∧ lon ≠ ""
  · rw [if_pos hc]
    cases hl : List.lookup (lat ++ "," ++ lon) cache with
    | some lc => exact h
    | none =>
      obtain ⟨v, hv⟩ := Option.isSome_iff_exists.mp h
      show (List.lookup k (cache ++ _)).isSome = true
      rw [List.lookup_append, hv]
      rfl
  · rw [if_neg hc]
    exact h

theorem genFoldl_cache_mono (env : GenEnv) {k : String} :
    ∀ (l : List (Nat × String)) (st : GenState),
    (List.lookup k st.cache).isSome = true →
    (List.lookup k (List.foldl (genStep env) st l).cache).isSome = true := by
  intro l
  induction l with
  | nil => intro st h; exact h
  | cons ip t ih =>
    intro st h
    rw [List.foldl_cons]
    apply ih
    by_cases hx : env.srcExists ip.2 = true
    · have : (genStep env st ip).cache
          = (geoLookup env st.cache (extract_gps (env.img ip.2)).1
              (extract_gps (env.img ip.2)).2).cache := by
        cases ip with
        | mk i p => simp [genStep, hx]
      rw [this]
      exact geoLookup_cache_mono h
    · have h' : env.srcExists ip.2 = false := Bool.eq_false_iff.mpr hx
      have : (genStep env st ip).cache = st.cache := by
        cases ip with
        | mk i p => rw [genStep_missing h']
      rw [this]
      exact h

theorem geoLookup_hit {env : GenEnv} {cache : GeoCache} {lat lon : String}
    {lc : String × String} (h1 : lat ≠ "") (h2 : lon ≠ "")
    (h3 : List.lookup (lat ++ "," ++ lon) cache = some lc) :
    geoLookup env cache lat lon = ⟨lc.1, lc.2, cache, []⟩ := by
  simp only [geoLookup]
  rw [if_pos ⟨h1, h2⟩, h3]

theorem geoLookup_miss {env : GenEnv} {cache : GeoCache} {lat lon : String}
    (h1 : lat ≠ "") (h2 : lon ≠ "")
    (h3 : List.lookup (lat ++ "," ++ lon) cache = none) :
    geoLookup env cache lat lon =
      (let r := env.geocode (lat, lon)
       let location := if r.name ≠ "" then r.name ++ ", " ++ r.cc else r.cc
       let cname := (List.lookup r.cc CC_TO_NAME).getD r.cc
       ⟨location, cname, cache ++ [(lat ++ "," ++ lon, (location, cname))],
         [lat ++ "," ++ lon]⟩) := by
  simp only [geoLookup]
  rw [if_pos ⟨h1, h2⟩, h3]

/-! ## Remaining helper lemmas -/

theorem setupAddFold_lookup_none_not_mem {f : String → Bool} {s : String} :
    ∀ (l : List String) (st : SetupState), s ∉ l → List.lookup s st.mapping = none →
    List.lookup s (List.foldl (setupAdd f) st l).mapping = none := by
  intro l
  induction l with
  | nil => intro st _ h; exact h
  | cons q t ih =>
    intro st hs h
    simp only [List.mem_cons, not_or] at hs
    rw [List.foldl_cons]
    by_cases h1 : (List.lookup q st.mapping).isSome
    · rw [setupAdd_skip h1]
      exact ih _ hs.2 h
    · have h1' : (List.lookup q st.mapping).isSome = false := Bool.eq_false_iff.mpr h1
      by_cases h2 : f q = true
      · rw [setupAdd_new h1' h2]
        refine ih _ hs.2 ?_
        show List.lookup s (st.mapping ++ [(q, _)]) = none
        rw [lookup_append_singleton_ne (fun hqs => hs.1 hqs.symm), h]
      · rw [setupAdd_err h1' (Bool.eq_false_iff.mpr h2)]
        exact ih _ hs.2 h

theorem enumFrom_filter_snd_not_mem {p : String} :
    ∀ (l : List String), p ∉ l → ∀ n,
    (l.enumFrom n).filter (fun ip => ip.2 = p) = [] := by
  intro l
  induction l with
  | nil => intro _ n; rfl
  | cons q t ih =>
    intro h n
    simp only [List.mem_cons, not_or] at h
    rw [List.enumFrom_cons, List.filter_cons_of_neg (by simp; exact fun hq => h.1 hq.symm)]
    exact ih h.2 (n + 1)

theorem enumFrom_filter_snd_eq {p : String} :
    ∀ (l : List String), l.Nodup → ∀ i n, l.get? i = some p →
    (l.enumFrom n).filter (fun ip => ip.2 = p) = [(n + i, p)] := by
  intro l
  induction l with
  | nil => intro _ i n h; exact absurd h (by simp)
  | cons q t ih =>
    intro hnd i n h
    rw [List.nodup_cons] at hnd
    match i with
    | 0 =>
      have hq : q = p := by simpa using h
      subst hq
      rw [List.enumFrom_cons, List.filter_cons_of_pos (by simp)]
      rw [enumFrom_filter_snd_not_mem t hnd.1 (n + 1)]
      simp
    | j + 1 =>
      have ht : t.get? j = some p := by simpa using h
      have hqp : ¬ q = p := by
        rintro rfl
        exact hnd.1 (List.get?_mem ht)
      rw [List.enumFrom_cons, List.filter_cons_of_neg (by simp; exact hqp)]
      rw [ih hnd.2 j (n + 1) ht]
      congr 2
      omega

theorem mem_enumFrom_of_get? {l : List String} {i : Nat} {p : String} {n : Nat}
    (h : l.get? i = some p) : (n + i, p) ∈ l.enumFrom n := by
  have hx : (l.enumFrom n).get? i = some (n + i, p) := by
    rw [List.get?_eq_getElem?, List.getElem?_enumFrom, ← List.get?_eq_getElem?, h]
    rfl
  exact List.get?_mem hx

/-! ## The claims -/

/-- C1: for every entry `(source_file, annotation_file)` of the mapping
loaded from `_data/annotation_map.csv`: if the source no longer occurs in
the `paw_prints.csv` worklist, the reconciliation drops the entry and
unlinks its annotation image and its `annotation/<stem>.json` sidecar, and
the entry is also absent from the saved mapping; if the source still
occurs, the entry survives with its annotation file unchanged and the
source is never copied again. -/
theorem claim_C1_reconciliation {f : String → Bool} {raw : List String}
    {map0 : List (String × String)} {dir0 : List String} {out : SetupOutput}
    {s a : String}
    (hrun : runSetup f raw map0 dir0 = some out)
    (hnd : (map0.map Prod.fst).Nodup)
    (hmem : (s, a) ∈ map0) :
    (s ∉ loadPaths raw →
      List.lookup s (removePhase (loadPaths raw) map0 dir0).1 = none ∧
      a ∉ (removePhase (loadPaths raw) map0 dir0).2.1 ∧
      (pyStem a ++ ".json") ∉ (removePhase (loadPaths raw) map0 dir0).2.1 ∧
      List.lookup s out.mapping = none) ∧
    (s ∈ loadPaths raw →
      List.lookup s out.mapping = some a ∧ ∀ d, (s, d) ∉ out.copies) := by
  simp only [runSetup] at hrun
  by_cases hE : (loadPaths raw).isEmpty = true
  · rw [if_pos hE] at hrun
    exact absurd hrun (by simp)
  · rw [if_neg hE] at hrun
    have hout := (Option.some.inj hrun).symm
    constructor
    · intro hs
      obtain ⟨hd1, hd2⟩ := @removePhase_deletes (loadPaths raw) map0 dir0 s a hmem hs
      refine ⟨removePhase_lookup_none hs, hd1, hd2, ?_⟩
      rw [hout]
      show List.lookup s (setupFold f raw map0 dir0).mapping = none
      rw [setupFold]
      exact setupAddFold_lookup_none_not_mem _ _ hs (removePhase_lookup_none hs)
    · intro hs
      have hkept : List.lookup s (removePhase (loadPaths raw) map0 dir0).1 = some a :=
        removePhase_lookup_kept hnd hmem hs
      constructor
      · rw [hout]
        show List.lookup s (setupFold f raw map0 dir0).mapping = some a
        rw [setupFold]
        exact setupAddFold_lookup_some _ _ hkept
      · intro d
        rw [hout]
        show (s, d) ∉ (setupFold f raw map0 dir0).copies
        rw [setupFold]
        exact setupAddFold_mapped_no_copy _ _ hkept (fun d' hd' => absurd hd' (by simp)) d

/-- C1 witness: with worklist `["a"]`, the stale entry `("b", "b.jpg")` is
removed together with `b.jpg` and `b.json`, while `("a", "a.jpg")` survives
uncopied. -/
theorem claim_C1_witness :
    (List.lookup "b" (removePhase (loadPaths ["a"]) [("a", "a.jpg"), ("b", "b.jpg")]
        ["a.jpg", "b.jpg", "b.json"]).1 = none ∧
      "b.jpg" ∉ (removePhase (loadPaths ["a"]) [("a", "a.jpg"), ("b", "b.jpg")]
        ["a.jpg", "b.jpg", "b.json"]).2.1 ∧
      (pyStem "b.jpg" ++ ".json") ∉ (removePhase (loadPaths ["a"])
        [("a", "a.jpg"), ("b", "b.jpg")] ["a.jpg", "b.jpg", "b.json"]).2.1 ∧
      List.lookup "b" ((runSetup (fun _ => true) ["a"] [("a", "a.jpg"), ("b", "b.jpg")]
        ["a.jpg", "b.jpg", "b.json"]).getD default).mapping = none) ∧
    (List.lookup "a" ((runSetup (fun _ => true) ["a"] [("a", "a.jpg"), ("b", "b.jpg")]
        ["a.jpg", "b.jpg", "b.json"]).getD default).mapping = some "a.jpg") := by
  have h := @claim_C1_reconciliation (fun _ => true) ["a"]
    [("a", "a.jpg"), ("b", "b.jpg")] ["a.jpg", "b.jpg", "b.json"]
    ((runSetup (fun _ => true) ["a"] [("a", "a.jpg"), ("b", "b.jpg")]
      ["a.jpg", "b.jpg", "b.json"]).getD default) "b" "b.jpg"
    (by rfl) (by decide) (by decide)
  have h2 := @claim_C1_reconciliation (fun _ => true) ["a"]
    [("a", "a.jpg"), ("b", "b.jpg")] ["a.jpg", "b.jpg", "b.json"]
    ((runSetup (fun _ => true) ["a"] [("a", "a.jpg"), ("b", "b.jpg")]
      ["a.jpg", "b.jpg", "b.json"]).getD default) "a" "a.jpg"
    (by rfl) (by decide) (by decide)
  exact ⟨h.1 (by decide), (h2.2 (by decide)).1⟩

/-- C8 as stated is false: a pre-existing duplication of annotation file
names among sources that are all still listed survives reconciliation, so
the saved mapping need not be injective. -/
theorem claim_C8_counterexample :
    (runSetup (fun _ => true) ["a", "b"] [("a", "x.jpg"), ("b", "x.jpg")] []).isSome = true ∧
    ¬ (((runSetup (fun _ => true) ["a", "b"] [("a", "x.jpg"), ("b", "x.jpg")] []).getD
        default).mapping.map Prod.snd).Nodup := by
  constructor
  · decide
  · decide

/-- C8 amended: provided the loaded mapping is injective on annotation file
names (as every mapping the script itself saves is), the saved mapping is
injective on annotation file names: reconciliation only removes entries,
and each newly assigned name is chosen by `unique_name` against the taken
set and then added to it. -/
theorem claim_C8_amended {f : String → Bool} {raw : List String}
    {map0 : List (String × String)} {dir0 : List String} {out : SetupOutput}
    (hrun : runSetup f raw map0 dir0 = some out)
    (hval : (map0.map Prod.snd).Nodup) :
    (out.mapping.map Prod.snd).Nodup := by
  simp only [runSetup] at hrun
  by_cases hE : (loadPaths raw).isEmpty = true
  · rw [if_pos hE] at hrun
    exact absurd hrun (by simp)
  · rw [if_neg hE] at hrun
    rw [(Option.some.inj hrun).symm]
    show ((setupFold f raw map0 dir0).mapping.map Prod.snd).Nodup
    rw [setupFold]
    apply setupAddFold_values_nodup
    · exact fun v hv => hv
    · have hsub : ((removePhase (loadPaths raw) map0 dir0).1.map Prod.snd).Sublist
          (map0.map Prod.snd) := by
        rw [removePhase_mapping]
        exact (List.filter_sublist map0).map Prod.snd
      exact hsub.nodup hval

/-- C8 witness: a run that both keeps an entry and assigns a fresh
deduplicated name yields pairwise distinct annotation file names. -/
theorem claim_C8_witness :
    ((((runSetup (fun _ => true) ["d/a.jpg", "e/a.jpg"] [("d/a.jpg", "a.jpg")] ["a.jpg"]
      ).getD default).mapping.map Prod.snd)).Nodup :=
  @claim_C8_amended (fun _ => true) ["d/a.jpg", "e/a.jpg"] [("d/a.jpg", "a.jpg")] ["a.jpg"]
    ((runSetup (fun _ => true) ["d/a.jpg", "e/a.jpg"] [("d/a.jpg", "a.jpg")]
      ["a.jpg"]).getD default) (by rfl) (by decide)

/-- C9: for every file name `wanted` and finite `taken`, `unique_name` is
total (the loop terminates) and returns the first element of the sequence
`wanted`, `stem_2+suffix`, `stem_3+suffix`, … that is not in `taken`; in
particular the returned name is never a member of `taken`. -/
theorem claim_C9_unique_name_first_free (wanted : String) (taken : List String) :
    (∃ k, unique_name wanted taken = nameSeq wanted k ∧ nameSeq wanted k ∉ taken ∧
      ∀ j < k, nameSeq wanted j ∈ taken) ∧
    unique_name wanted taken ∉ taken :=
  ⟨unique_name_spec wanted taken, unique_name_not_mem wanted taken⟩

/-- C9 witness: with `a.jpg` and `a_2.jpg` taken, the search returns
`a_3.jpg`, which is indeed not taken. -/
theorem claim_C9_witness :
    unique_name "a.jpg" ["a.jpg", "a_2.jpg"] = "a_3.jpg" ∧
    unique_name "a.jpg" ["a.jpg", "a_2.jpg"] ∉ ["a.jpg", "a_2.jpg"] :=
  ⟨by decide, (claim_C9_unique_name_first_free "a.jpg" ["a.jpg", "a_2.jpg"]).2⟩

theorem genFold_errors_eq (env : GenEnv) (raw : List String) (cache0 : GeoCache) :
    (genFold env raw cache0).errors
      = (sortedPaths env raw).filter (fun q => !env.srcExists q) := by
  rw [genFold, genFoldl_errors]
  simp only [List.nil_append]
  rw [show (fun ip : Nat × String => !env.srcExists ip.2)
      = (fun q => !env.srcExists q) ∘ Prod.snd from rfl]
  rw [← List.filter_map, List.enumFrom_map_snd]

theorem genFold_warnings_eq (env : GenEnv) (raw : List String) (cache0 : GeoCache) :
    (genFold env raw cache0).warnings
      = ((sortedPaths env raw).filter (fun q => !env.srcExists q)).map warnNotFound := by
  rw [genFold, genFoldl_warnings]
  simp only [List.nil_append]
  rw [show (fun ip : Nat × String => warnNotFound ip.2) = warnNotFound ∘ Prod.snd from rfl]
  rw [← List.map_map]
  rw [show (fun ip : Nat × String => !env.srcExists ip.2)
      = (fun q => !env.srcExists q) ∘ Prod.snd from rfl]
  rw [← List.filter_map, List.enumFrom_map_snd]

theorem genFold_rows_proj_eq (env : GenEnv) (raw : List String) (cache0 : GeoCache) :
    (genFold env raw cache0).rows.map projRow
      = (((sortedPaths env raw).enumFrom 1).filter
          (fun ip => env.srcExists ip.2)).map claimedFields := by
  rw [genFold, genFoldl_rows_proj]
  simp

theorem genFold_copies_eq (env : GenEnv) (raw : List String) (cache0 : GeoCache) :
    (genFold env raw cache0).copies
      = (((sortedPaths env raw).enumFrom 1).filter
          (fun ip => env.srcExists ip.2)).map claimedCopy := by
  rw [genFold, genFoldl_copies]
  simp

/-- C6 as stated is false for `setup_annotation`: a listed path that is
missing on disk but already present in the loaded mapping is skipped by the
mapping check before the existence check, so no warning is printed and the
error count is not incremented. -/
theorem claim_C6_counterexample :
    (runSetup (fun _ => false) ["p"] [("p", "a.jpg")] []).isSome = true ∧
    ((fun (_ : String) => false) "p" = false) ∧
    "p" ∈ loadPaths ["p"] ∧
    ((runSetup (fun _ => false) ["p"] [("p", "a.jpg")] []).getD default).errorCount = 0 ∧
    ((runSetup (fun _ => false) ["p"] [("p", "a.jpg")] []).getD default).warnings = [] ∧
    ((runSetup (fun _ => false) ["p"] [("p", "a.jpg")] []).getD default).skipCount = 1 := by
  refine ⟨by decide, rfl, by decide, by decide, by decide, by decide⟩

/-- C6 amended: a missing source path never aborts either run.
`generate_paw_collection` warns, records the path among its errors, copies
nothing and emits no row for it — unconditionally.  `setup_annotation` does
the same (warning, error count, no copy, no mapping entry) for a missing
path that is not already in the loaded mapping; an already-mapped missing
path is skipped via the mapping branch instead, without a warning. -/
theorem claim_C6_amended {env : GenEnv} {raw : List String} {cache0 : GeoCache}
    {gout : GenOutput} {f : String → Bool} {sraw : List String}
    {map0 : List (String × String)} {dir0 : List String} {sout : SetupOutput}
    {p : String} :
    (runGenerate env raw cache0 = some gout → env.srcExists p = false →
      gout.errors = (sortedPaths env raw).filter (fun q => !env.srcExists q) ∧
      gout.warnings = ((sortedPaths env raw).filter (fun q => !env.srcExists q)).map
        warnNotFound ∧
      (∀ r ∈ gout.rows, r.source_file ≠ p) ∧
      (∀ d, (p, d) ∉ gout.copies)) ∧
    (runSetup f sraw map0 dir0 = some sout → f p = false → p ∉ map0.map Prod.fst →
      List.lookup p sout.mapping = none ∧
      (∀ d, (p, d) ∉ sout.copies) ∧
      sout.errorCount = sout.warnings.length ∧
      sout.warnings.count (warnNotFound p) = (loadPaths sraw).count p) := by
  constructor
  · intro hrun hp
    simp only [runGenerate] at hrun
    by_cases hE : (loadPaths raw).isEmpty = true
    · rw [if_pos hE] at hrun
      exact absurd hrun (by simp)
    · rw [if_neg hE] at hrun
      have hout := (Option.some.inj hrun).symm
      refine ⟨?_, ?_, ?_, ?_⟩
      · rw [hout]
        exact genFold_errors_eq env raw cache0
      · rw [hout]
        exact genFold_warnings_eq env raw cache0
      · intro r hr hsrc
        rw [hout] at hr
        have hmem : projRow r ∈ (genFold env raw cache0).rows.map projRow :=
          List.mem_map_of_mem projRow hr
        rw [genFold_rows_proj_eq] at hmem
        obtain ⟨ip, hip, hproj⟩ := List.mem_map.mp hmem
        have hex : env.srcExists ip.2 = true := by
          have := (List.mem_filter.mp hip).2
          simpa using this
        have h5 : ip.2 = r.source_file := congrArg (fun t => t.2.2.2.2) hproj
        rw [h5, hsrc, hp] at hex
        exact Bool.noConfusion hex
      · intro d hd
        rw [hout] at hd
        have hd' : (p, d) ∈ (genFold env raw cache0).copies := hd
        rw [genFold_copies_eq] at hd'
        obtain ⟨ip, hip, hcp⟩ := List.mem_map.mp hd'
        have hex : env.srcExists ip.2 = true := by
          have := (List.mem_filter.mp hip).2
          simpa using this
        have h1 : ip.2 = p := congrArg Prod.fst hcp
        rw [h1, hp] at hex
        exact Bool.noConfusion hex
  · intro hrun hf hnk
    simp only [runSetup] at hrun
    by_cases hE : (loadPaths sraw).isEmpty = true
    · rw [if_pos hE] at hrun
      exact absurd hrun (by simp)
    · rw [if_neg hE] at hrun
      have hout := (Option.some.inj hrun).symm
      have h0 : List.lookup p (removePhase (loadPaths sraw) map0 dir0).1 = none := by
        apply lookup_eq_none_of_not_mem_keys
        intro hc
        apply hnk
        rw [removePhase_mapping] at hc
        obtain ⟨e, he, rfl⟩ := List.mem_map.mp hc
        exact List.mem_map_of_mem Prod.fst (List.mem_of_mem_filter he)
      obtain ⟨hm, hcp, hct⟩ := setupAddFold_missing hf (loadPaths sraw)
        ⟨(removePhase (loadPaths sraw) map0 dir0).1,
         (removePhase (loadPaths sraw) map0 dir0).1.map Prod.snd,
         (removePhase (loadPaths sraw) map0 dir0).2.1, [], [], 0, 0, 0⟩ h0
      obtain ⟨w, hw1, hw2⟩ := setupAddFold_warnings_errorCount (loadPaths sraw)
        ⟨(removePhase (loadPaths sraw) map0 dir0).1,
         (removePhase (loadPaths sraw) map0 dir0).1.map Prod.snd,
         (removePhase (loadPaths sraw) map0 dir0).2.1, [], [], 0, 0, 0⟩
      refine ⟨?_, ?_, ?_, ?_⟩
      · rw [hout]
        exact hm
      · intro d hd
        rw [hout] at hd
        exact absurd (hcp d hd) (List.not_mem_nil _)
      · rw [hout]
        show (setupFold f sraw map0 dir0).errorCount = (setupFold f sraw map0 dir0).warnings.length
        rw [setupFold]
        rw [hw1, hw2]
        simp
      · rw [hout]
        show (setupFold f sraw map0 dir0).warnings.count (warnNotFound p) = _
        rw [setupFold]
        rw [hct]
        simp

/-- C6 witness: with only `x` existing, `generate_paw_collection` records
`y` as an error and warns; with no files existing, `setup_annotation`
counts one error for the fresh missing path `p` and warns once. -/
theorem claim_C6_witness :
    ((runGenerate (egEnv (fun q => q == "x")) ["x", "y"] []).getD default).errors = ["y"] ∧
    ((runGenerate (egEnv (fun q => q == "x")) ["x", "y"] []).getD default).warnings
      = [warnNotFound "y"] ∧
    ((runSetup (fun _ => false) ["p"] [] []).getD default).errorCount
      = ((runSetup (fun _ => false) ["p"] [] []).getD default).warnings.length ∧
    ((runSetup (fun _ => false) ["p"] [] []).getD default).warnings.count (warnNotFound "p")
      = 1 := by
  have hg := (@claim_C6_amended (egEnv (fun q => q == "x")) ["x", "y"] []
      ((runGenerate (egEnv (fun q => q == "x")) ["x", "y"] []).getD default)
      (fun _ => false) ["p"] [] []
      ((runSetup (fun _ => false) ["p"] [] []).getD default) "y").1
    (by rfl) (by decide)
  have hs := (@claim_C6_amended (egEnv (fun q => q == "x")) ["x", "y"] []
      ((runGenerate (egEnv (fun q => q == "x")) ["x", "y"] []).getD default)
      (fun _ => false) ["p"] [] []
      ((runSetup (fun _ => false) ["p"] [] []).getD default) "p").2
    (by rfl) (by decide) (by decide)
  refine ⟨hg.1.trans (by decide), hg.2.1.trans (by decide), hs.2.2.1,
    hs.2.2.2.trans (by decide)⟩

/-- C4: every existing source path at 1-based position `NNN` of the
date-sorted worklist is copied to `objects/paw_NNN.jpg` and yields exactly
one metadata row, with objectid `paw_NNN`, object_location
`/objects/paw_NNN.jpg`, type `Image` and format `image/jpeg`; the output
CSV holds exactly these rows, in order, under the fixed `FIELDNAMES`
header.  (The per-path uniqueness clause presupposes distinct worklist
paths, which is what makes "the path's position" well defined.) -/
theorem claim_C4_collection {env : GenEnv} {raw : List String} {cache0 : GeoCache}
    {out : GenOutput} (hrun : runGenerate env raw cache0 = some out) :
    out.header = FIELDNAMES ∧
    out.rows.map projRow = (((sortedPaths env raw).enumFrom 1).filter
        (fun ip => env.srcExists ip.2)).map claimedFields ∧
    out.copies = (((sortedPaths env raw).enumFrom 1).filter
        (fun ip => env.srcExists ip.2)).map claimedCopy ∧
    ((loadPaths raw).Nodup → ∀ p i, (sortedPaths env raw).get? i = some p →
      env.srcExists p = true →
      (out.rows.filter (fun r => r.source_file = p)).map projRow
          = [claimedFields (i + 1, p)] ∧
      claimedCopy (i + 1, p) ∈ out.copies) := by
  simp only [runGenerate] at hrun
  by_cases hE : (loadPaths raw).isEmpty = true
  · rw [if_pos hE] at hrun
    exact absurd hrun (by simp)
  · rw [if_neg hE] at hrun
    have hout := (Option.some.inj hrun).symm
    have hrows : out.rows.map projRow = (((sortedPaths env raw).enumFrom 1).filter
        (fun ip => env.srcExists ip.2)).map claimedFields := by
      rw [hout]
      exact genFold_rows_proj_eq env raw cache0
    have hcopies : out.copies = (((sortedPaths env raw).enumFrom 1).filter
        (fun ip => env.srcExists ip.2)).map claimedCopy := by
      rw [hout]
      exact genFold_copies_eq env raw cache0
    refine ⟨by rw [hout], hrows, hcopies, ?_⟩
    intro hnd p i hi hex
    have hnds : (sortedPaths env raw).Nodup :=
      ((stableSort_perm _ (loadPaths raw)).nodup_iff).mpr hnd
    constructor
    · have step1 : (out.rows.filter (fun r => r.source_file = p)).map projRow
          = (out.rows.map projRow).filter (fun t => t.2.2.2.2 = p) := by
        rw [show (fun r : Row => decide (r.source_file = p))
            = ((fun t : String × String × String × String × String =>
                decide (t.2.2.2.2 = p)) ∘ projRow) from rfl]
        rw [← List.filter_map]
      rw [step1, hrows]
      rw [List.filter_map]
      have step2 : (((sortedPaths env raw).enumFrom 1).filter
            (fun ip => env.srcExists ip.2)).filter
              ((fun t : String × String × String × String × String =>
                decide (t.2.2.2.2 = p)) ∘ claimedFields)
          = ((sortedPaths env raw).enumFrom 1).filter (fun ip => ip.2 = p) := by
        rw [show ((fun t : String × String × String × String × String =>
              decide (t.2.2.2.2 = p)) ∘ claimedFields)
            = (fun ip : Nat × String => decide (ip.2 = p)) from rfl]
        rw [List.filter_filter]
        apply List.filter_congr
        intro ip _
        by_cases hip : ip.2 = p
        · simp [hip, hex]
        · simp [hip]
      rw [step2, enumFrom_filter_snd_eq (sortedPaths env raw) hnds i 1 hi]
      rw [show 1 + i = i + 1 by omega]
      rfl
    · rw [hcopies]
      apply List.mem_map_of_mem claimedCopy
      apply List.mem_filter.mpr
      refine ⟨?_, by simpa using hex⟩
      rw [show i + 1 = 1 + i by omega]
      exact mem_enumFrom_of_get? hi

/-- C4 witness: a single existing path `a` is copied to
`objects/paw_001.jpg` and yields exactly one row with the prescribed
objectid, object_location, type and format. -/
theorem claim_C4_witness :
    ((runGenerate (egEnv (fun _ => true)) ["a"] []).getD default).header = FIELDNAMES ∧
    ((((runGenerate (egEnv (fun _ => true)) ["a"] []).getD default).rows.filter
        (fun r => r.source_file = "a")).map projRow
      = [("paw_001", "/objects/paw_001.jpg", "Image", "image/jpeg", "a")]) ∧
    ("a", "objects/paw_001.jpg") ∈
      ((runGenerate (egEnv (fun _ => true)) ["a"] []).getD default).copies := by
  have h := @claim_C4_collection (egEnv (fun _ => true)) ["a"] []
    ((runGenerate (egEnv (fun _ => true)) ["a"] []).getD default) (by rfl)
  have hp := h.2.2.2 (by decide) "a" 0 (by decide) (by decide)
  exact ⟨h.1, hp.1.trans (by decide), by
    have := hp.2
    simpa using this⟩

/-- C10: the rows of the output CSV appear in nondecreasing lexicographic
order of their inferred date key (`extract_date` with empty results
replaced by `"0000"`), recomputed from each row's `source_file`. -/
theorem claim_C10_date_sorted {env : GenEnv} {raw : List String} {cache0 : GeoCache}
    {out : GenOutput} (hrun : runGenerate env raw cache0 = some out) :
    List.Pairwise (fun a b => pyStrLe a b = true)
      (out.rows.map (fun r => dateKey env r.source_file)) := by
  simp only [runGenerate] at hrun
  by_cases hE : (loadPaths raw).isEmpty = true
  · rw [if_pos hE] at hrun
    exact absurd hrun (by simp)
  · rw [if_neg hE] at hrun
    have hout := (Option.some.inj hrun).symm
    have hsrc : out.rows.map (fun r => r.source_file)
        = ((sortedPaths env raw).filter (fun q => env.srcExists q)) := by
      have h1 : out.rows.map (fun r => r.source_file)
          = (out.rows.map projRow).map
              (fun t : String × String × String × String × String => t.2.2.2.2) := by
        rw [List.map_map]
        rfl
      rw [h1, hout, genFold_rows_proj_eq]
      rw [List.map_map]
      rw [show ((fun t : String × String × String × String × String => t.2.2.2.2)
          ∘ claimedFields) = (Prod.snd : Nat × String → String) from rfl]
      rw [show (fun ip : Nat × String => env.srcExists ip.2)
          = (fun q => env.srcExists q) ∘ Prod.snd from rfl]
      rw [← List.filter_map, List.enumFrom_map_snd]
    have h2 : out.rows.map (fun r => dateKey env r.source_file)
        = (out.rows.map (fun r => r.source_file)).map (dateKey env) := by
      rw [List.map_map]
      rfl
    rw [h2, hsrc]
    apply List.pairwise_map.mpr
    apply List.Pairwise.filter
    have := pairwise_stableSort (fun a b => pyStrLe (dateKey env a) (dateKey env b))
      (fun a b c => pyStrLe_trans) (fun a b => pyStrLe_total _ _) (loadPaths raw)
    exact this

/-- C10 witness: two paths with reversed file-name dates come out in date
order. -/
theorem claim_C10_witness :
    List.Pairwise (fun a b => pyStrLe a b = true)
      ((((runGenerate (egEnv (fun _ => true)) ["b20230202", "a20230101"] []).getD
        default).rows).map (fun r => dateKey (egEnv (fun _ => true)) r.source_file)) :=
  @claim_C10_date_sorted (egEnv (fun _ => true)) ["b20230202", "a20230101"] []
    ((runGenerate (egEnv (fun _ => true)) ["b20230202", "a20230101"] []).getD default)
    (by rfl)

/-- C5: the geo cache is a flat dictionary with no eviction: every key of
the cache loaded at start is still present in the cache flushed at the end
of the run; within the loop, a cached `"lat,lon"` key is answered from the
cache with no geocoder call, and a miss calls the geocoder once and inserts
its result under that key. -/
theorem claim_C5_geo_cache (env : GenEnv) (raw : List String) (cache0 : GeoCache)
    (out : GenOutput) (cache : GeoCache) (lat lon : String) (lc : String × String) :
    (runGenerate env raw cache0 = some out →
      ∀ k, (List.lookup k cache0).isSome = true →
        (List.lookup k out.cacheFile).isSome = true) ∧
    (lat ≠ "" → lon ≠ "" → List.lookup (lat ++ "," ++ lon) cache = some lc →
      geoLookup env cache lat lon = ⟨lc.1, lc.2, cache, []⟩) ∧
    (lat ≠ "" → lon ≠ "" → List.lookup (lat ++ "," ++ lon) cache = none →
      geoLookup env cache lat lon =
        (let r := env.geocode (lat, lon)
         let location := if r.name ≠ "" then r.name ++ ", " ++ r.cc else r.cc
         let cname := (List.lookup r.cc CC_TO_NAME).getD r.cc
         ⟨location, cname, cache ++ [(lat ++ "," ++ lon, (location, cname))],
           [lat ++ "," ++ lon]⟩)) := by
  refine ⟨?_, fun h1 h2 h3 => geoLookup_hit h1 h2 h3,
    fun h1 h2 h3 => geoLookup_miss h1 h2 h3⟩
  intro hrun k hk
  simp only [runGenerate] at hrun
  by_cases hE : (loadPaths raw).isEmpty = true
  · rw [if_pos hE] at hrun
    exact absurd hrun (by simp)
  · rw [if_neg hE] at hrun
    rw [(Option.some.inj hrun).symm]
    show (List.lookup k (genFold env raw cache0).cache).isSome = true
    rw [genFold]
    exact genFoldl_cache_mono env _ _ hk

/-- C5 witness: a cached coordinate pair is served from the cache without a
geocoder call, and an initial cache key survives a run. -/
theorem claim_C5_witness :
    geoLookup (egEnv (fun _ => true)) [("1,2", ("X", "Y"))] "1" "2"
      = ⟨"X", "Y", [("1,2", ("X", "Y"))], []⟩ ∧
    (List.lookup "k" ((runGenerate (egEnv (fun _ => true)) ["a"]
      [("k", ("l", "c"))]).getD default).cacheFile).isSome = true := by
  constructor
  · exact (claim_C5_geo_cache (egEnv (fun _ => true)) ["a"] [("k", ("l", "c"))]
      ((runGenerate (egEnv (fun _ => true)) ["a"] [("k", ("l", "c"))]).getD default)
      [("1,2", ("X", "Y"))] "1" "2" ("X", "Y")).2.1 (by decide) (by decide) (by decide)
  · exact (claim_C5_geo_cache (egEnv (fun _ => true)) ["a"] [("k", ("l", "c"))]
      ((runGenerate (egEnv (fun _ => true)) ["a"] [("k", ("l", "c"))]).getD default)
      [("1,2", ("X", "Y"))] "1" "2" ("X", "Y")).1 (by rfl) "k" (by decide)

/-- C7 as stated is false: a source mapped to an empty annotation file name
falls into the falsy check `if not ann_file`, so the species field is empty
even though the mapping has an entry for the path and the sidecar
`annotation/.json` exists and parses with a true flag. -/
theorem claim_C7_counterexample :
    List.lookup "p" [("p", "")] = some "" ∧
    (fun s => s == "annotation/.json") ("annotation/" ++ pyStem "" ++ ".json") = true ∧
    joinSC (([("cat", true)].filter (fun kv => kv.2)).map (fun kv => kv.1)) = "cat" ∧
    _read_species "p" [("p", "")] (fun s => s == "annotation/.json")
        (fun _ => some [("cat", true)]) = "" := by
  refine ⟨by decide, by decide, by decide, by decide⟩

/-- C7 amended: the species field equals the semicolon-joined true flags of
the sidecar `annotation/<stem of the mapped annotation file>.json`, and is
empty when the path has no entry in the annotation map, when the mapped
annotation file name is the empty string, when the sidecar does not exist,
or when reading/parsing the sidecar fails. -/
theorem claim_C7_amended (src : String) (annMap : List (String × String))
    (fsExists : String → Bool) (readJson : String → Option (List (String × Bool))) :
    (List.lookup src annMap = none → _read_species src annMap fsExists readJson = "") ∧
    (List.lookup src annMap = some "" → _read_species src annMap fsExists readJson = "") ∧
    (∀ a, List.lookup src annMap = some a → a ≠ "" →
      fsExists ("annotation/" ++ pyStem a ++ ".json") = false →
      _read_species src annMap fsExists readJson = "") ∧
    (∀ a, List.lookup src annMap = some a → a ≠ "" →
      fsExists ("annotation/" ++ pyStem a ++ ".json") = true →
      readJson ("annotation/" ++ pyStem a ++ ".json") = none →
      _read_species src annMap fsExists readJson = "") ∧
    (∀ a flags, List.lookup src annMap = some a → a ≠ "" →
      fsExists ("annotation/" ++ pyStem a ++ ".json") = true →
      readJson ("annotation/" ++ pyStem a ++ ".json") = some flags →
      _read_species src annMap fsExists readJson
        = joinSC ((flags.filter (fun kv => kv.2)).map (fun kv => kv.1))) := by
  refine ⟨?_, ?_, ?_, ?_, ?_⟩
  · intro h
    simp only [_read_species]
    rw [h]
  · intro h
    simp only [_read_species]
    rw [h]
    simp
  · intro a h ha hfs
    simp only [_read_species]
    rw [h]
    simp [ha, hfs]
  · intro a h ha hfs hrj
    simp only [_read_species]
    rw [h]
    simp [ha, hfs, hrj]
  · intro a flags h ha hfs hrj
    simp only [_read_species]
    rw [h]
    simp [ha, hfs, hrj]

/-- C7 witness: a mapped path with an existing, parsable sidecar gets the
semicolon-joined true flags. -/
theorem claim_C7_witness :
    _read_species "p" [("p", "x.jpg")] (fun s => s == "annotation/x.json")
      (fun _ => some [("cat", true), ("dog", false), ("fox", true)])
      = joinSC (([("cat", true), ("dog", false), ("fox", true)].filter
          (fun kv => kv.2)).map (fun kv => kv.1)) :=
  (claim_C7_amended "p" [("p", "x.jpg")] (fun s => s == "annotation/x.json")
      (fun _ => some [("cat", true), ("dog", false), ("fox", true)])).2.2.2.2
    "x.jpg" [("cat", true), ("dog", false), ("fox", true)]
    (by decide) (by decide) (by decide) rfl

theorem exifDateScan_found :
    ∀ (tags : List (String × ExifVal)) (s : String), exifDateScan tags = .found s →
    ∃ n v, (n, v) ∈ tags ∧ (n = "DateTimeOriginal" ∨ n = "DateTime") ∧
      ∃ d0 d1 d2 y mo dy,
        splitChars (fun c => c = ':') ((splitChars (fun c => c = ' ')
          (pyStripChars (pyStrOfVal v).data)).headD []) = [d0, d1, d2] ∧
        d0.length = 4 ∧
        pyInt? (String.mk d0) = some y ∧ pyInt? (String.mk d1) = some mo ∧
        pyInt? (String.mk d2) = some dy ∧
        1900 ≤ y ∧ y ≤ 2100 ∧ 1 ≤ mo ∧ mo ≤ 12 ∧ 1 ≤ dy ∧ dy ≤ 31 ∧
        s = String.mk d0 ++ "-" ++ String.mk d1 ++ "-" ++ String.mk d2 := by
  intro tags
  induction tags with
  | nil =>
    intro s h
    exact absurd h (by simp [exifDateScan])
  | cons nv rest ih =>
    intro s h
    obtain ⟨n, v⟩ := nv
    simp only [exifDateScan] at h
    by_cases hn : n = "DateTimeOriginal" ∨ n = "DateTime"
    · rw [if_pos hn] at h
      by_cases hd : (splitChars (fun c => c = ':') ((splitChars (fun c => c = ' ')
            (pyStripChars (pyStrOfVal v).data)).headD [])).length = 3 ∧
          ((splitChars (fun c => c = ':') ((splitChars (fun c => c = ' ')
            (pyStripChars (pyStrOfVal v).data)).headD [])).headD []).length = 4
      · rw [if_pos hd] at h
        obtain ⟨d0, d1, d2, hd3⟩ := List.length_eq_three.mp hd.1
        rw [hd3] at h
        cases hy : pyInt? (String.mk ([d0, d1, d2].getD 0 [])) with
        | none =>
          rw [hy] at h
          exact absurd h (by simp)
        | some y =>
          rw [hy] at h
          cases hmo : pyInt? (String.mk ([d0, d1, d2].getD 1 [])) with
          | none =>
            rw [hmo] at h
            exact absurd h (by simp)
          | some mo =>
            rw [hmo] at h
            cases hdy : pyInt? (String.mk ([d0, d1, d2].getD 2 [])) with
            | none =>
              rw [hdy] at h
              exact absurd h (by simp)
            | some dy =>
              rw [hdy] at h
              have h2 : (if 1900 ≤ y ∧ y ≤ 2100 ∧ 1 ≤ mo ∧ mo ≤ 12 ∧ 1 ≤ dy ∧ dy ≤ 31
                  then ScanRes.found (String.mk ([d0, d1, d2].getD 0 []) ++ "-" ++
                    String.mk ([d0, d1, d2].getD 1 []) ++ "-" ++
                    String.mk ([d0, d1, d2].getD 2 []))
                  else exifDateScan rest) = ScanRes.found s := h
              by_cases hr : 1900 ≤ y ∧ y ≤ 2100 ∧ 1 ≤ mo ∧ mo ≤ 12 ∧ 1 ≤ dy ∧ dy ≤ 31
              · rw [if_pos hr] at h2
                have hs := (ScanRes.found.inj h2).symm
                refine ⟨n, v, List.mem_cons_self _ _, hn,
                  d0, d1, d2, y, mo, dy, hd3, ?_, ?_, ?_, ?_,
                  hr.1, hr.2.1, hr.2.2.1, hr.2.2.2.1, hr.2.2.2.2.1, hr.2.2.2.2.2, ?_⟩
                · have := hd.2
                  rw [hd3] at this
                  simpa using this
                · simpa using hy
                · simpa using hmo
                · simpa using hdy
                · simpa using hs
              · rw [if_neg hr] at h2
                obtain ⟨n', v', hmem, rest'⟩ := ih s h2
                exact ⟨n', v', List.mem_cons_of_mem _ hmem, rest'⟩
      · rw [if_neg hd] at h
        obtain ⟨n', v', hmem, rest'⟩ := ih s h
        exact ⟨n', v', List.mem_cons_of_mem _ hmem, rest'⟩
    · rw [if_neg hn] at h
      obtain ⟨n', v', hmem, rest'⟩ := ih s h
      exact ⟨n', v', List.mem_cons_of_mem _ hmem, rest'⟩

/-- C2: `extract_date` applies its fallbacks in a fixed order and returns
the first that succeeds: (1) the leftmost run of eight consecutive digits
in the file-name stem, formatted `YYYY-MM-DD` with no range validation;
otherwise (2) a `DateTimeOriginal`/`DateTime` EXIF value, accepted only if
its date part splits on `':'` into three fields with a four-character year
parsing to 1900–2100, a month parsing to 1–12 and a day parsing to 1–31;
otherwise (3) a four-digit directory component of the path, as a bare year;
otherwise (4) the empty string. -/
theorem claim_C2_extract_date (p : String) (img : Option PyImage) :
    (∀ g1 g2 g3, find8 (pyPathStem p).data = some (g1, (g2, g3)) →
      extract_date p img = String.mk g1 ++ "-" ++ String.mk g2 ++ "-" ++ String.mk g3) ∧
    (find8 (pyPathStem p).data = none → ∀ s, exifDate img = .found s →
      extract_date p img = s) ∧
    (find8 (pyPathStem p).data = none → (∀ s, exifDate img ≠ .found s) →
      ((∀ y, yearDir p.data = some y → extract_date p img = String.mk y) ∧
       (yearDir p.data = none → extract_date p img = ""))) ∧
    (∀ tags s, exifDateScan tags = .found s →
      ∃ n v, (n, v) ∈ tags ∧ (n = "DateTimeOriginal" ∨ n = "DateTime") ∧
      ∃ d0 d1 d2 y mo dy,
        splitChars (fun c => c = ':') ((splitChars (fun c => c = ' ')
          (pyStripChars (pyStrOfVal v).data)).headD []) = [d0, d1, d2] ∧
        d0.length = 4 ∧
        pyInt? (String.mk d0) = some y ∧ pyInt? (String.mk d1) = some mo ∧
        pyInt? (String.mk d2) = some dy ∧
        1900 ≤ y ∧ y ≤ 2100 ∧ 1 ≤ mo ∧ mo ≤ 12 ∧ 1 ≤ dy ∧ dy ≤ 31 ∧
        s = String.mk d0 ++ "-" ++ String.mk d1 ++ "-" ++ String.mk d2) := by
  refine ⟨?_, ?_, ?_, exifDateScan_found⟩
  · intro g1 g2 g3 hf
    rw [extract_date, hf]
  · intro hf s hs
    rw [extract_date, hf, hs]
  · intro hf hne
    constructor
    · intro y hy
      rw [extract_date, hf]
      cases he : exifDate img with
      | found s => exact absurd he (hne s)
      | exc => rw [hy]
      | notFound => rw [hy]
    · intro hy
      rw [extract_date, hf]
      cases he : exifDate img with
      | found s => exact absurd he (hne s)
      | exc => rw [hy]
      | notFound => rw [hy]

/-- C2 witness: eight digits in the stem win with no range validation
(month 99, day 99), and without them a validated EXIF date is used. -/
theorem claim_C2_witness :
    extract_date "x/IMG_99999999.jpg" none = "9999-99-99" ∧
    extract_date "x/a.jpg"
      (some ⟨true, some [("DateTime", .str "2020:01:02 10:11:12")], none⟩)
      = "2020-01-02" := by
  constructor
  · exact (claim_C2_extract_date "x/IMG_99999999.jpg" none).1
      "9999".data "99".data "99".data (by decide)
  · exact (claim_C2_extract_date "x/a.jpg"
      (some ⟨true, some [("DateTime", .str "2020:01:02 10:11:12")], none⟩)).2.1
      (by decide) "2020-01-02" (by decide)

theorem lookup_ne_nil_of_isSome {β : Type} {l : List (String × β)} {k : String} {v : β}
    (h : List.lookup k l = some v) : l.isEmpty = false := by
  cases l with
  | nil => exact absurd h (by simp)
  | cons e t => rfl

/-- C3: `extract_gps` converts the EXIF GPS degrees/minutes/seconds to
decimal degrees by `d + m/60 + s/3600`, negates for a `"S"`/`"W"`
reference, rounds half-to-even to six decimal places and renders the pair
as strings; it returns `("", "")` when the image has no EXIF data, when the
`GPSInfo` tag is absent, or when any step of the extraction raises: opening
or `_getexif` fails, the `GPSInfo` value is not a dictionary (`.items()`
raises), any of the four coordinate/reference keys is missing (`KeyError`),
or a coordinate value is not a numeric triple (`float`/unpacking raises). -/
theorem claim_C3_extract_gps (img : PyImage) :
    (img.openOk = false → extract_gps img = ("", "")) ∧
    (img.exif = none → extract_gps img = ("", "")) ∧
    (∀ tags, img.exif = some tags → List.lookup "GPSInfo" tags = none →
      extract_gps img = ("", "")) ∧
    (∀ tags entries dla mla sla lar dlo mlo slo lor,
      img.openOk = true → img.exif = some tags →
      List.lookup "GPSInfo" tags = some (.gps entries) →
      List.lookup "GPSLatitude" entries = some (.triple dla mla sla) →
      List.lookup "GPSLatitudeRef" entries = some lar →
      List.lookup "GPSLongitude" entries = some (.triple dlo mlo slo) →
      List.lookup "GPSLongitudeRef" entries = some lor →
      extract_gps img =
        (ratStr6 (round6 (if isSW lar then -(dla + mla / 60 + sla / 3600)
            else dla + mla / 60 + sla / 3600)),
         ratStr6 (round6 (if isSW lor then -(dlo + mlo / 60 + slo / 3600)
            else dlo + mlo / 60 + slo / 3600)))) ∧
    (∀ tags entries, img.openOk = true → img.exif = some tags →
      List.lookup "GPSInfo" tags = some (.gps entries) →
      List.lookup "GPSLatitude" entries = none →
      extract_gps img = ("", "")) ∧
    (∀ tags v, img.openOk = true → img.exif = some tags →
      List.lookup "GPSInfo" tags = some (.str v) →
      extract_gps img = ("", "")) ∧
    (∀ tags entries, img.openOk = true → img.exif = some tags →
      List.lookup "GPSInfo" tags = some (.gps entries) →
      List.lookup "GPSLatitudeRef" entries = none →
      extract_gps img = ("", "")) ∧
    (∀ tags entries, img.openOk = true → img.exif = some tags →
      List.lookup "GPSInfo" tags = some (.gps entries) →
      List.lookup "GPSLongitude" entries = none →
      extract_gps img = ("", "")) ∧
    (∀ tags entries, img.openOk = true → img.exif = some tags →
      List.lookup "GPSInfo" tags = some (.gps entries) →
      List.lookup "GPSLongitudeRef" entries = none →
      extract_gps img = ("", "")) ∧
    (∀ tags entries v, img.openOk = true → img.exif = some tags →
      List.lookup "GPSInfo" tags = some (.gps entries) →
      List.lookup "GPSLatitude" entries = some (.str v) →
      extract_gps img = ("", "")) ∧
    (∀ tags entries v, img.openOk = true → img.exif = some tags →
      List.lookup "GPSInfo" tags = some (.gps entries) →
      List.lookup "GPSLongitude" entries = some (.str v) →
      extract_gps img = ("", "")) := by
  refine ⟨?_, ?_, ?_, ?_, ?_, ?_, ?_, ?_, ?_, ?_, ?_⟩
  · intro h
    simp [extract_gps, h]
  · intro h
    by_cases ho : img.openOk = true
    · simp [extract_gps, ho, h]
    · simp [extract_gps, Bool.eq_false_iff.mpr ho]
  · intro tags hex hlk
    by_cases ho : img.openOk = true
    · by_cases hemp : tags.isEmpty = true
      · simp [extract_gps, ho, hex, hemp]
      · simp [extract_gps, ho, hex, Bool.eq_false_iff.mpr hemp, hlk]
    · simp [extract_gps, Bool.eq_false_iff.mpr ho]
  · intro tags entries dla mla sla lar dlo mlo slo lor ho hex hgi hla hlar hlo hlor
    have htne : tags.isEmpty = false := lookup_ne_nil_of_isSome hgi
    have hene : entries.isEmpty = false := lookup_ne_nil_of_isSome hla
    simp only [extract_gps, ho, if_true, hex, htne, Bool.false_eq_true, if_false]
    rw [hgi]
    simp only [hene, Bool.false_eq_true, if_false]
    rw [hla, hlar, hlo, hlor]
    simp only [to_decimal]
  · intro tags entries ho hex hgi hla
    have htne : tags.isEmpty = false := lookup_ne_nil_of_isSome hgi
    simp only [extract_gps, ho, if_true, hex, htne, Bool.false_eq_true, if_false]
    rw [hgi]
    by_cases hene : entries.isEmpty = true
    · simp [hene]
    · simp only [Bool.eq_false_iff.mpr hene, Bool.false_eq_true, if_false]
      rw [hla]
  · intro tags v ho hex hgi
    have htne : tags.isEmpty = false := lookup_ne_nil_of_isSome hgi
    simp only [extract_gps, ho, if_true, hex, htne, Bool.false_eq_true, if_false]
    rw [hgi]
  · intro tags entries ho hex hgi hmiss
    have htne : tags.isEmpty = false := lookup_ne_nil_of_isSome hgi
    simp only [extract_gps, ho, if_true, hex, htne, Bool.false_eq_true, if_false]
    rw [hgi]
    by_cases hene : entries.isEmpty = true
    · simp [hene]
    · simp only [Bool.eq_false_iff.mpr hene, Bool.false_eq_true, if_false]
      rw [hmiss]
      cases List.lookup "GPSLatitude" entries <;> rfl
  · intro tags entries ho hex hgi hmiss
    have htne : tags.isEmpty = false := lookup_ne_nil_of_isSome hgi
    simp only [extract_gps, ho, if_true, hex, htne, Bool.false_eq_true, if_false]
    rw [hgi]
    by_cases hene : entries.isEmpty = true
    · simp [hene]
    · simp only [Bool.eq_false_iff.mpr hene, Bool.false_eq_true, if_false]
      rw [hmiss]
      cases List.lookup "GPSLatitude" entries with
      | none => rfl
      | some lav =>
        cases List.lookup "GPSLatitudeRef" entries with
        | none => rfl
        | some larv => rfl
  · intro tags entries ho hex hgi hmiss
    have htne : tags.isEmpty = false := lookup_ne_nil_of_isSome hgi
    simp only [extract_gps, ho, if_true, hex, htne, Bool.false_eq_true, if_false]
    rw [hgi]
    by_cases hene : entries.isEmpty = true
    · simp [hene]
    · simp only [Bool.eq_false_iff.mpr hene, Bool.false_eq_true, if_false]
      rw [hmiss]
      cases List.lookup "GPSLatitude" entries with
      | none => rfl
      | some lav =>
        cases List.lookup "GPSLatitudeRef" entries with
        | none => rfl
        | some larv =>
          cases List.lookup "GPSLongitude" entries with
          | none => rfl
          | some lov => rfl
  · intro tags entries v ho hex hgi hstr
    have htne : tags.isEmpty = false := lookup_ne_nil_of_isSome hgi
    have hene : entries.isEmpty = false := lookup_ne_nil_of_isSome hstr
    simp only [extract_gps, ho, if_true, hex, htne, Bool.false_eq_true, if_false]
    rw [hgi]
    simp only [hene, Bool.false_eq_true, if_false]
    rw [hstr]
    cases List.lookup "GPSLatitudeRef" entries with
    | none => rfl
    | some larv =>
      cases List.lookup "GPSLongitude" entries with
      | none => rfl
      | some lov =>
        cases List.lookup "GPSLongitudeRef" entries with
        | none => rfl
        | some lorv =>
          cases lov with
          | str s2 => rfl
          | triple d2 m2 s2 => rfl
  · intro tags entries v ho hex hgi hstr
    have htne : tags.isEmpty = false := lookup_ne_nil_of_isSome hgi
    have hene : entries.isEmpty = false := lookup_ne_nil_of_isSome hstr
    simp only [extract_gps, ho, if_true, hex, htne, Bool.false_eq_true, if_false]
    rw [hgi]
    simp only [hene, Bool.false_eq_true, if_false]
    rw [hstr]
    cases List.lookup "GPSLatitude" entries with
    | none => rfl
    | some lav =>
      cases List.lookup "GPSLatitudeRef" entries with
      | none => rfl
      | some larv =>
        cases List.lookup "GPSLongitudeRef" entries with
        | none => rfl
        | some lorv =>
          cases lav with
          | str s2 => rfl
          | triple d2 m2 s2 => rfl

/-- C3 witness: a complete GPS dictionary is converted by the claimed
formula; an image with no EXIF yields the empty pair. -/
theorem claim_C3_witness :
    extract_gps egGpsImage =
      (ratStr6 (round6 (if isSW (.str "N") then -((52 : ℚ) + 30 / 60 + 0 / 3600)
          else (52 : ℚ) + 30 / 60 + 0 / 3600)),
       ratStr6 (round6 (if isSW (.str "E") then -((13 : ℚ) + 24 / 60 + 0 / 3600)
          else (13 : ℚ) + 24 / 60 + 0 / 3600))) ∧
    extract_gps ⟨true, none, none⟩ = ("", "") := by
  constructor
  · exact (claim_C3_extract_gps egGpsImage).2.2.2.1
      [("GPSInfo", .gps [("GPSLatitude", .triple 52 30 0), ("GPSLatitudeRef", .str "N"),
        ("GPSLongitude", .triple 13 24 0), ("GPSLongitudeRef", .str "E")])]
      [("GPSLatitude", .triple 52 30 0), ("GPSLatitudeRef", .str "N"),
        ("GPSLongitude", .triple 13 24 0), ("GPSLongitudeRef", .str "E")]
      52 30 0 (.str "N") 13 24 0 (.str "E")
      rfl rfl rfl rfl rfl rfl rfl
  · exact (claim_C3_extract_gps ⟨true, none, none⟩).2.1 rfl

end PawPrints
